import Mathlib

set_option maxRecDepth 200000

instance {ε α : Type _} [DecidableEq ε] [DecidableEq α] : DecidableEq (Except ε α) :=
  fun a b =>
    match a, b with
    | .ok x, .ok y =>
      if h : x = y then .isTrue (by rw [h])
      else .isFalse (fun he => h (Except.ok.inj he))
    | .error x, .error y =>
      if h : x = y then .isTrue (by rw [h])
      else .isFalse (fun he => h (Except.error.inj he))
    | .ok _, .error _ => .isFalse (fun he => Except.noConfusion he)
    | .error _, .ok _ => .isFalse (fun he => Except.noConfusion he)

/-!
# Verification of the Techathon bid decision engine

Shallow embedding of the core scoring / pricing / ranking logic of the
Techathon repository:

* `techathon_app/agents/tech_agent.py` (`RealTechAgent`): spec matching,
  standards matching, testing-cost drum estimate;
* `resources/catalogue/agents/pricing_agent.py` (`PricingEngine`,
  `RealPricingAgent.process_pricing`): BOM costing, logistics, financials,
  competitive game theory, margin clamping;
* `legacy_agents/Agents/pricing_Agent/pricing_agent.py` (the legacy copy of
  `solve_game_theory`, which aggregates differently);
* `techathon_app/agents/priority_agent.py` (`RealPriorityAgent`): portfolio
  ranking.

Modelling conventions:

* Python/JSON dynamic values are embedded as `JVal`
  (null / string / number / array); JSON objects are embedded as typed Lean
  structures whose fields mirror the keys the code reads.  A `dict.get`
  without default becomes `Option`, a `dict.get` with default becomes
  `Option.getD` at the use site.
* Numbers are exact rationals (`ℚ`).  The Python code computes with IEEE-754
  doubles; all the constants and test values involved are small decimals, and
  the claims under study are about exact decimal arithmetic, so the rational
  semantics is the intended reading.  `round(x, n)` is embedded as rounding
  half-to-even (Python's rounding mode) on rationals.
* Code that can raise an uncaught exception is embedded in
  `Except String`; code whose exceptions are caught locally (`try/except`)
  is total.
-/

/-- A Python/JSON value as it flows through the agents: `None`, a string, a
number (modelled as an exact rational), or a list. -/
inductive JVal where
  | null : JVal
  | str (s : String) : JVal
  | num (q : ℚ) : JVal
  | arr (elems : List JVal) : JVal
deriving Repr

/-- Python truthiness (`bool(v)`) for the values of `JVal`:
`None`, `""`, `0` and `[]` are falsy. -/
def pyFalsy : JVal → Bool
  | .null => true
  | .str s => s = ""
  | .num q => q = 0
  | .arr l => l.isEmpty

/-- `str.strip()`: drop whitespace from both ends. -/
def pyStrip (s : String) : String :=
  String.mk (((s.toList.dropWhile Char.isWhitespace).reverse.dropWhile
    Char.isWhitespace).reverse)

/-- `str.lower()` (ASCII, which covers all data in the repository). -/
def pyLower (s : String) : String := String.mk (s.toList.map Char.toLower)

/-- `str.upper()` (ASCII). -/
def pyUpper (s : String) : String := String.mk (s.toList.map Char.toUpper)

/-- `needle in hay` for Python strings: contiguous-subsequence test. -/
def listContains (needle : List Char) : List Char → Bool
  | [] => needle.isEmpty
  | c :: rest => needle.isPrefixOf (c :: rest) || listContains needle rest

/-- `needle in hay` on `String`. -/
def strContains (hay needle : String) : Bool :=
  listContains needle.toList hay.toList

/-- `str.replace(pat, rep)` for a non-empty pattern `p :: ps`:
left-to-right, non-overlapping. -/
def replaceList (p : Char) (ps rep : List Char) : List Char → List Char
  | [] => []
  | c :: rest =>
    if (p :: ps).isPrefixOf (c :: rest) then
      rep ++ replaceList p ps rep ((c :: rest).drop (ps.length + 1))
    else
      c :: replaceList p ps rep rest
termination_by l => l.length
decreasing_by
  · simp only [List.length_drop, List.length_cons]
    omega
  · simp only [List.length_cons]
    omega

/-- `str.replace(pat, rep)` on `String` (empty pattern unused by the code). -/
def pyReplace (s pat rep : String) : String :=
  match pat.toList with
  | [] => s
  | p :: ps => String.mk (replaceList p ps rep.toList s.toList)

/-- The value of a list of ASCII digit characters read in base 10. -/
def digitsVal (l : List Char) : ℕ :=
  l.foldl (fun a c => a * 10 + (c.toNat - 48)) 0

/-- Left-pad a digit string with zeros to width `k`. -/
def padZeros (s : String) (k : ℕ) : String :=
  String.mk (List.replicate (k - s.length) '0' ++ s.toList)

/-- `str(v)` for a JSON-loaded number: integers print with no decimal point,
terminating decimals print in positional form (Python's `repr` of the
corresponding value).  Rationals with a non-terminating decimal expansion do
not arise from JSON literals; they fall back to a fraction rendering. -/
def decStr (q : ℚ) : String :=
  let sign := if q < 0 then "-" else ""
  let n := q.num.natAbs
  let d := q.den
  if d = 1 then sign ++ toString n
  else
    match (List.range 30).find? (fun k => 10 ^ (k + 1) % d = 0) with
    | some k0 =>
      let k := k0 + 1
      let m := n * (10 ^ k / d)
      sign ++ toString (m / 10 ^ k) ++ "." ++ padZeros (toString (m % 10 ^ k)) k
    | none => sign ++ toString n ++ "/" ++ toString d

/-- `str(x)` for a Python float: an integral float prints with a trailing
`.0` (`str(-3.0) = "-3.0"`), unlike an `int`. -/
def floatStr (q : ℚ) : String :=
  if q.den = 1 then decStr q ++ ".0" else decStr q

mutual
/-- `str(v)` for a `JVal` (`str(None) = "None"`; lists print as Python
`repr` does, with string elements single-quoted). -/
def pyStr : JVal → String
  | .null => "None"
  | .str s => s
  | .num q => decStr q
  | .arr xs => "[" ++ String.intercalate ", " (pyReprList xs) ++ "]"

/-- `repr(v)` for a `JVal` element inside a printed list. -/
def pyRepr : JVal → String
  | .null => "None"
  | .str s => "'" ++ s ++ "'"
  | .num q => decStr q
  | .arr xs => "[" ++ String.intercalate ", " (pyReprList xs) ++ "]"

/-- `repr` applied elementwise. -/
def pyReprList : List JVal → List String
  | [] => []
  | x :: xs => pyRepr x :: pyReprList xs
end

/-- Parse a run of digit/dot characters the way Python `float` does:
at most one dot, at least one digit. -/
def parseNumRun (run : List Char) : Option ℚ :=
  match run.splitOn '.' with
  | [ds] => if ds.isEmpty then none else some (digitsVal ds : ℚ)
  | [a, b] =>
    if a.isEmpty ∧ b.isEmpty then none
    else some ((digitsVal a : ℚ) + (digitsVal b : ℚ) / 10 ^ b.length)
  | _ => none

/-- Parse a stripped string as Python `float` would (plain decimal literals,
optionally signed; the repository's data uses no exponents or specials). -/
def parseFloatStr (s : String) : Option ℚ :=
  let t := (pyStrip s).toList
  match t with
  | '-' :: rest => if rest.all (fun c => c.isDigit || c = '.') then
      (parseNumRun rest).map (fun q => -q) else none
  | '+' :: rest => if rest.all (fun c => c.isDigit || c = '.') then
      parseNumRun rest else none
  | _ => if t.all (fun c => c.isDigit || c = '.') then parseNumRun t else none

/-- `float(v)`: succeeds on numbers and numeric strings, raises (`none`)
on `None`, lists and non-numeric strings. -/
def pyFloat : JVal → Option ℚ
  | .num q => some q
  | .str s => parseFloatStr s
  | _ => none

/-- The floor of a rational, written out computably
(`⌊q⌋ = q.num / q.den` with Euclidean integer division). -/
def ratFloor (x : ℚ) : ℤ := x.num / (x.den : ℤ)

/-- The ceiling of a rational, computably. -/
def ratCeil (x : ℚ) : ℤ := -ratFloor (-x)

/-- Round half-to-even to an integer (Python's `round` on an exact value). -/
def rhe (x : ℚ) : ℤ :=
  if x - ratFloor x < 1 / 2 then ratFloor x
  else if 1 / 2 < x - ratFloor x then ratFloor x + 1
  else if ratFloor x % 2 = 0 then ratFloor x else ratFloor x + 1

/-- Python `round(x, 3)` on exact rationals. -/
def round3 (x : ℚ) : ℚ := (rhe (x * 1000) : ℚ) / 1000

/-- Python `round(x, 1)` on exact rationals. -/
def round1 (x : ℚ) : ℚ := (rhe (x * 10) : ℚ) / 10

/-- Python `round(x, 2)` on exact rationals. -/
def round2 (x : ℚ) : ℚ := (rhe (x * 100) : ℚ) / 100

/-- Python `int(x)`: truncation toward zero. -/
def pyTrunc (q : ℚ) : ℤ := if q < 0 then -ratFloor (-q) else ratFloor q

/-- `f"{x:.1f}"`: fixed-point rendering with one decimal digit. -/
def fmt1f (q : ℚ) : String :=
  let n := rhe (q * 10)
  let sign := if n < 0 then "-" else ""
  sign ++ toString (n.natAbs / 10) ++ "." ++ toString (n.natAbs % 10)

/-- `f"{x:.2f}"`: fixed-point rendering with two decimal digits. -/
def fmt2f (q : ℚ) : String :=
  let n := rhe (q * 100)
  let sign := if n < 0 then "-" else ""
  sign ++ toString (n.natAbs / 100) ++ "." ++ padZeros (toString (n.natAbs % 100)) 2

/-- Group a digit string into blocks of three with commas, from the right. -/
def commaGroup (l : List Char) : List Char :=
  let rec go : List Char → List Char
    | [] => []
    | [a] => [a]
    | [a, b] => [a, b]
    | [a, b, c] => [a, b, c]
    | a :: b :: c :: d :: rest => a :: b :: c :: ',' :: go (d :: rest)
  (go l.reverse).reverse

/-- `f"{x:,.0f}"`: round to an integer, comma-grouped thousands. -/
def fmtComma0 (q : ℚ) : String :=
  let n := rhe q
  let sign := if n < 0 then "-" else ""
  sign ++ String.mk (commaGroup (toString n.natAbs).toList)

/-! ## `RealTechAgent` (techathon_app/agents/tech_agent.py) -/

namespace TechAgent

/-- Scan for the first `')'` reachable without crossing a newline (regex `.`
does not match `'\n'`); return the remainder after it. -/
def spanToClose : List Char → Option (List Char)
  | [] => none
  | ')' :: rest => some rest
  | '\n' :: _ => none
  | _ :: rest => spanToClose rest

theorem spanToClose_length : ∀ l r, spanToClose l = some r → r.length < l.length := by
  intro l
  induction l with
  | nil => intro r h; simp [spanToClose] at h
  | cons c rest ih =>
    intro r h
    by_cases hc : c = ')'
    · subst hc; simp [spanToClose] at h; subst h; simp
    · by_cases hn : c = '\n'
      · subst hn; simp [spanToClose] at h
      · have : spanToClose (c :: rest) = spanToClose rest := by
          cases c
          simp_all [spanToClose]
        rw [this] at h
        have := ih r h
        simp; omega

/-- `re.sub(r"\(.*?\)", "", s)`: delete each non-greedy parenthesized span
(first `')'` after each `'('`, not crossing a newline). -/
def removeParens : List Char → List Char
  | [] => []
  | c :: rest =>
    if c = '(' then
      match h : spanToClose rest with
      | some after => removeParens after
      | none => c :: removeParens rest
    else
      c :: removeParens rest
termination_by l => l.length
decreasing_by
  · have := spanToClose_length rest after h
    simp only [List.length_cons]
    omega
  · simp only [List.length_cons]
    omega
  · simp only [List.length_cons]
    omega

/-- `re.sub(r":\d{4}", "", s)`: delete each colon followed by four digits. -/
def removeYear : List Char → List Char
  | ':' :: a :: b :: c :: d :: rest =>
    if a.isDigit ∧ b.isDigit ∧ c.isDigit ∧ d.isDigit then
      removeYear rest
    else
      ':' :: removeYear (a :: b :: c :: d :: rest)
  | c :: rest => c :: removeYear rest
  | [] => []
termination_by l => l.length
decreasing_by
  all_goals simp only [List.length_cons]
  all_goals omega

/-- `RealTechAgent.normalize`: `None` stays `None`, everything else becomes
`str(v).strip().lower()`. -/
def normalize : JVal → Option String
  | .null => none
  | v => some (pyLower (pyStrip (pyStr v)))

/-- `RealTechAgent.normalize_material`: strip parenthesized qualifiers, map
synonym tokens of aluminium/copper to a canonical name. -/
def normalize_material (v : JVal) : Option String :=
  match normalize v with
  | none => none
  | some n0 =>
    if n0 = "" then none
    else
      let n := pyStrip (String.mk (removeParens n0.toList))
      if n = "aluminum" ∨ n = "al" ∨ n = "alu" ∨ n = "aluminium" then some "aluminium"
      else if n = "cu" ∨ n = "copper" then some "copper"
      else
        let tokens := (n.split Char.isWhitespace).filter (· ≠ "")
        if tokens.contains "al" || tokens.contains "aluminum" ||
            tokens.contains "aluminium" || tokens.contains "alu" then
          some "aluminium"
        else if tokens.contains "cu" || tokens.contains "copper" then
          some "copper"
        else some n

/-- `RealTechAgent.is_not_specified`: `None`, an all-whitespace string, or a
string whose stripped uppercase form is `"NOT SPECIFIED"`. -/
def is_not_specified : JVal → Bool
  | .null => true
  | .str s => pyUpper (pyStrip s) = "NOT SPECIFIED" || pyStrip s = ""
  | _ => false

/-- `RealTechAgent.normalize_standard`: lower-case, drop parenthesized
qualifiers and `:YYYY` year suffixes, normalize `part-` to `part `. -/
def normalize_standard (v : JVal) : Option String :=
  if pyFalsy v then none
  else
    match normalize v with
    | none => none
    | some s0 =>
      some (pyStrip (pyReplace
        (String.mk (removeYear (removeParens s0.toList))) "part-" "part "))

/-- `RealTechAgent.match_cross_section`: wildcard requirement gives full
credit; unparseable values give zero; otherwise a linearly decaying score
`max(0, round(1 - |i - r| / r, 3))`.  A parseable requirement equal to `0`
divides by zero, which raises (`.error`) in the Python code. -/
def match_cross_section (rfp_val inv_val : JVal) : Except String ℚ :=
  if is_not_specified rfp_val then .ok 1
  else
    match pyFloat rfp_val, pyFloat inv_val with
    | some r, some i =>
      if r = 0 then .error "ZeroDivisionError"
      else .ok (max 0 (round3 (1 - |i - r| / r)))
    | _, _ => .ok 0

/-- Iterating a `JVal` as `match_standards` does: a string is wrapped into a
one-element list, a list iterates, a non-zero number is not iterable
(`TypeError`).  Falsy values are handled before this point. -/
def asStdList : JVal → Except String (List JVal)
  | .str s => .ok [.str s]
  | .arr xs => .ok xs
  | .null => .ok []
  | .num q => if q = 0 then .ok [] else .error "TypeError: not iterable"

/-- Whether one normalized required standard earns its weight: the generic
quality mark is always satisfied, otherwise the normalized requirement must
appear among the candidate's normalized standards. -/
def stdSatisfied (invNorm : List (Option String)) (std : Option String) : Bool :=
  std = some "isi marked" || invNorm.contains std

/-- `RealTechAgent.match_standards`: weight `1.0` split evenly over the
required standards; each satisfied one adds its share; result rounded to
three decimals.  An empty/missing requirement list scores `1.0`. -/
def match_standards (rfp_list inv_list : JVal) : Except String ℚ := do
  if pyFalsy rfp_list then return 1
  let rfpL ← asStdList rfp_list
  let invL ← asStdList inv_list
  let rfp_norm := rfpL.map normalize_standard
  let inv_norm := invL.map normalize_standard
  let total := rfp_norm.length
  if total = 0 then return 1
  let per_std_weight : ℚ := 1 / total
  let score := (rfp_norm.map
    (fun std => if stdSatisfied inv_norm std then per_std_weight else 0)).sum
  return round3 score

/-- First maximal run of digit/dot characters (`re.findall(r"[\d\.]+", s)[0]`). -/
def firstNumRun : List Char → Option (List Char)
  | [] => none
  | c :: rest =>
    if c.isDigit || c = '.' then
      some (c :: rest.takeWhile (fun x => x.isDigit || x = '.'))
    else firstNumRun rest

/-- `RealTechAgent.normalize_voltage`: strip `VOLTS`/`V`, parse the first
numeric run; a `K` in the original string or a value below 50 is read as
kilovolts and scaled by 1000; anything unparseable (or falsy) yields 0. -/
def normalize_voltage (v : JVal) : ℚ :=
  if pyFalsy v then 0
  else
    let orig := pyUpper (pyStr v)
    let s := pyStrip (pyReplace (pyReplace orig "VOLTS" "") "V" "")
    match firstNumRun s.toList with
    | none => 0
    | some run =>
      match parseNumRun run with
      | none => 0
      | some val => if strContains orig "K" || val < 50 then val * 1000 else val

/-- One RFP line item's requirement map / one SKU's `technical_specs` map:
the fields `calculate_weighted_score` reads.  `none` is an absent key. -/
structure TechSpecs where
  voltage_grade : Option JVal := none
  core_count : Option JVal := none
  cross_section_sqmm : Option JVal := none
  conductor_material : Option JVal := none
  standards : Option JVal := none
  insulation : Option JVal := none
  sheath : Option JVal := none
  armour_type : Option JVal := none
deriving Repr

/-- `dict.get(k)`: an absent key reads as `None`. -/
def getJ (o : Option JVal) : JVal := o.getD .null

/-- Voltage contribution (weight 20): exact normalized match gives full
weight, a non-zero pair within 10% relative difference gives half. -/
def voltage_contrib (rfp inv : Option JVal) : ℚ :=
  let rfp_v := normalize_voltage (getJ rfp)
  let inv_v := normalize_voltage (getJ inv)
  if rfp_v = inv_v then 20
  else if rfp_v ≠ 0 ∧ inv_v ≠ 0 ∧ |rfp_v - inv_v| / rfp_v < 1 / 10 then 20 * (1 / 2)
  else 0

/-- Core-count contribution (weight 15): `float` both values (an absent key
defaults to `0`); exact equality earns the weight, any conversion failure
is swallowed by `except: pass`. -/
def core_count_contrib (rfp inv : Option JVal) : ℚ :=
  let conv : Option JVal → Option ℚ := fun o =>
    match o with
    | none => some 0
    | some v => pyFloat v
  match conv rfp, conv inv with
  | some a, some b => if a = b then 15 else 0
  | _, _ => 0

/-- Cross-section contribution (weight 15): scaled `match_cross_section`. -/
def cross_section_contrib (rfp inv : Option JVal) : Except String ℚ := do
  let sz ← match_cross_section (getJ rfp) (getJ inv)
  return 15 * sz

/-- Conductor-material contribution (weight 15): synonym-normalized equality
(two absent/unrecognizable values compare equal, as `None == None`). -/
def material_contrib (rfp inv : Option JVal) : ℚ :=
  if normalize_material (getJ rfp) = normalize_material (getJ inv) then 15 else 0

/-- Standards contribution (weight 15): scaled `match_standards`. -/
def standards_contrib (rfp inv : Option JVal) : Except String ℚ := do
  let s ← match_standards (getJ rfp) (getJ inv)
  return 15 * s

/-- Contribution of one plain string field (insulation 10 / sheath 5 /
armour 5): both values must normalize to non-empty strings and one must
contain the other. -/
def string_field_contrib (w : ℚ) (rfp inv : Option JVal) : ℚ :=
  match normalize (getJ rfp), normalize (getJ inv) with
  | some r, some i =>
    if r ≠ "" ∧ i ≠ "" ∧ (strContains i r || strContains r i) then w else 0
  | _, _ => 0

/-- `RealTechAgent.calculate_weighted_score`: the 7-factor weighted score,
expressed over 100 and rounded to one decimal. -/
def calculate_weighted_score (rfp inv : TechSpecs) : Except String ℚ := do
  let xs ← cross_section_contrib rfp.cross_section_sqmm inv.cross_section_sqmm
  let std ← standards_contrib rfp.standards inv.standards
  let score :=
    voltage_contrib rfp.voltage_grade inv.voltage_grade +
    core_count_contrib rfp.core_count inv.core_count +
    xs +
    material_contrib rfp.conductor_material inv.conductor_material +
    std +
    string_field_contrib 10 rfp.insulation inv.insulation +
    string_field_contrib 5 rfp.sheath inv.sheath +
    string_field_contrib 5 rfp.armour_type inv.armour_type
  let max_score : ℚ := 100
  return round1 (score / max_score * 100)

/-- `RealTechAgent.compute_match_score` forwards to the weighted score. -/
def compute_match_score (rfp inv : TechSpecs) : Except String ℚ :=
  calculate_weighted_score rfp inv

end TechAgent

namespace TechAgent

/-- `str.title()` for ASCII text: a letter starting a run of letters is
upper-cased, the rest are lower-cased. -/
def pyTitle (s : String) : String :=
  let rec go (prevAlpha : Bool) : List Char → List Char
    | [] => []
    | c :: rest =>
      if c.isAlpha then
        (if prevAlpha then c.toLower else c.toUpper) :: go true rest
      else
        c :: go false rest
  String.mk (go false s.toList)

/-- One row of the per-field comparison table built by
`RealTechAgent.generate_breakdown`. -/
structure BreakdownRow where
  spec : String
  requested : JVal
  actual : JVal
  status : String
deriving Repr

/-- One catalog product as `find_best_matches` reads it. -/
structure SKU where
  product_id : Option JVal := none
  product_name : Option JVal := none
  technical_specs : Option TechSpecs := none
  commercial : Option (List (String × JVal)) := none
deriving Repr

/-- One RFP line item as `find_best_matches` reads it. -/
structure LineItem where
  lot_id : Option JVal := none
  raw_description : Option JVal := none
  technical_attributes : Option TechSpecs := none
  quantity : Option JVal := none
deriving Repr

/-- The per-line-item result record appended by `find_best_matches`. -/
structure MatchResult where
  lot_id : JVal
  rfp_description : JVal
  matched_sku_id : JVal
  matched_sku_name : JVal
  match_score : ℚ
  quantity : JVal
  technical_breakdown : List BreakdownRow
  commercial_ref : List (String × JVal)
deriving Repr

/-- The five fields `generate_breakdown` compares, with their accessors. -/
def breakdownFields : List (String × (TechSpecs → Option JVal)) :=
  [("voltage_grade", TechSpecs.voltage_grade),
   ("core_count", TechSpecs.core_count),
   ("cross_section_sqmm", TechSpecs.cross_section_sqmm),
   ("conductor_material", TechSpecs.conductor_material),
   ("insulation", TechSpecs.insulation)]

/-- `RealTechAgent.generate_breakdown`: the detailed comparison list for the
best match (empty when there is no match).  Material uses synonym
normalization on `str(v)`, voltage uses voltage normalization, the rest plain
normalized equality on `str(v)`. -/
def generate_breakdown (rfp_specs : TechSpecs) (sku : Option SKU) : List BreakdownRow :=
  match sku with
  | none => []
  | some sk =>
    let sku_specs := sk.technical_specs.getD {}
    breakdownFields.map (fun fa =>
      let f := fa.1
      let r_val := (fa.2 rfp_specs).getD (.str "N/A")
      let s_val := (fa.2 sku_specs).getD (.str "N/A")
      let is_match :=
        if f = "conductor_material" then
          normalize_material (.str (pyStr r_val)) = normalize_material (.str (pyStr s_val))
        else if f = "voltage_grade" then
          normalize_voltage r_val = normalize_voltage s_val
        else
          normalize (.str (pyStr r_val)) = normalize (.str (pyStr s_val))
      { spec := pyTitle (pyReplace f "_" " "),
        requested := r_val,
        actual := s_val,
        status := if is_match then "Match" else "Mismatch" })

/-- The inner best-candidate scan of `find_best_matches`: the running best
starts at `(None, -1)` and is replaced only on a strictly higher score, so
the first candidate wins ties. -/
def bestScan (attrs : TechSpecs) (inventory : List SKU) :
    Except String (Option SKU × ℚ) :=
  inventory.foldlM
    (fun acc sku => do
      let score ← compute_match_score attrs (sku.technical_specs.getD {})
      if score > acc.2 then pure (some sku, score) else pure acc)
    ((none : Option SKU), (-1 : ℚ))

/-- `RealTechAgent.find_best_matches`: for each line item, scan the whole
inventory for the highest-scoring SKU and emit a result record; with no
winner the sentinel values `"NO_MATCH"` / `"No Suitable Product Found"` /
score `-1` are emitted. -/
def find_best_matches (line_items : List LineItem) (inventory : List SKU) :
    Except String (List MatchResult) :=
  line_items.mapM (fun item => do
    let attrs := item.technical_attributes.getD {}
    let (best_match, highest_score) ← bestScan attrs inventory
    let breakdown := generate_breakdown attrs best_match
    pure {
      lot_id := getJ item.lot_id,
      rfp_description := getJ item.raw_description,
      matched_sku_id :=
        match best_match with
        | some sk => getJ sk.product_id
        | none => .str "NO_MATCH",
      matched_sku_name :=
        match best_match with
        | some sk => getJ sk.product_name
        | none => .str "No Suitable Product Found",
      match_score := highest_score,
      quantity := getJ item.quantity,
      technical_breakdown := breakdown,
      commercial_ref :=
        match best_match with
        | some sk => sk.commercial.getD []
        | none => [] })

/-- `item.get("quantity") or 0` followed by `float(...)`, shared by the
testing-cost and pricing loops: an absent key or falsy value reads as `0`;
a non-numeric value makes `float` raise (`none`). -/
def qty_or_zero (q : Option JVal) : Option ℚ :=
  pyFloat (match q with
    | none => .num 0
    | some v => if pyFalsy v then .num 0 else v)

/-- `RealTechAgent.calculate_testing_costs` drum estimate
(`drums = max(1, qty / 500)`): the drum count is floored at one, the
quantity itself is not clamped. -/
def tech_drums (qty : ℚ) : ℚ := max 1 (qty / 500)

end TechAgent

/-! ## `PricingEngine` (resources/catalogue/agents/pricing_agent.py)

Configuration constants are the literals of the module-level `CONFIG`
(`TARGET_NET_MARGIN` is the one value the optional `settings.json` overlay
can change, so it is threaded as a parameter of `process_pricing`). -/

namespace Pricing

open TechAgent (getJ)

/-- One `bill_of_materials` entry. -/
structure BomItem where
  material_id : Option JVal := none
  quantity : Option JVal := none
deriving Repr

/-- One `material_master.json` record (`material_id` is read with `[]`,
hence mandatory; the rest are read with `.get`). -/
structure Material where
  material_id : String
  material_name : Option JVal := none
  base_cost_per_unit : Option ℚ := none
  current_market_factor : Option ℚ := none
  volatility_risk_level : Option String := none
deriving Repr

/-- The `commercial` sub-object of a product. -/
structure ProductCommercial where
  base_manufacturing_cost : Option ℚ := none
deriving Repr

/-- The `performance_data` sub-object of a product. -/
structure PerformanceData where
  approx_weight_kg_km : Option ℚ := none
deriving Repr

/-- One `product_master_enriched.json` record. -/
structure Product where
  product_id : Option JVal := none
  bill_of_materials : Option (List BomItem) := none
  bill_of_materials_enriched : Option (List BomItem) := none
  commercial : Option ProductCommercial := none
  performance_data : Option PerformanceData := none
deriving Repr

/-- One `factory_production_schedule.json` record
(`utilization_percent` is read with `[]`, hence mandatory). -/
structure Batch where
  production_line_id : Option String := none
  utilization_percent : ℚ
deriving Repr

/-- One `logistic_master.json` record (`zone_code` and `zone_type` are read
with `[]`, hence mandatory). -/
structure Zone where
  zone_code : String
  zone_type : String
  transport_rate_per_ton_km : Option ℚ := none
  surcharge_multiplier : Option ℚ := none
  risk_factor_percent : Option ℚ := none
deriving Repr

/-- One `client_master.json` record. -/
structure Client where
  client_name : String
  payment_terms : Option String := none
  loyalty_status : Option String := none
deriving Repr

/-- One `competitors.json` record, flattened to the keys the engine reads
(`pricing_intelligence.aggression_score` is a mandatory `[]` access,
`performance_metrics.get('win_rate_against_us', 0)` and `.get('tier', '')`
have defaults). -/
structure Competitor where
  competitor_id : String
  name : String
  aggression_score : ℚ
  win_rate_against_us : Option ℚ := none
  tier : Option String := none
deriving Repr

/-- One `test_master.json` record (`test_id` and `test_name` are mandatory
`[]` accesses in the pricing loop). -/
structure TestRec where
  test_id : String
  test_name : String
  base_test_cost : Option ℚ := none
  test_category : Option String := none
deriving Repr

/-- The reference-data warehouse loaded by `Database`. -/
structure Db where
  products : List Product := []
  materials : List Material := []
  logistics : List Zone := []
  clients : List Client := []
  competitors : List Competitor := []
  factory : List Batch := []
  tests : List TestRec := []

/-- One iteration of the BOM loop in `calculate_micro_bom_cost`: convert
the per-meter quantity with `float` (an uncaught `ValueError` on bad data),
look up the material (an unknown material id falls back to a flat 500
rate), and add the hedging buffer for high-volatility materials. -/
def bomStep (total_qty_mtr : ℚ) (materials : List Material)
    (acc : ℚ × ℚ × List String) (item : BomItem) :
    Except String (ℚ × ℚ × List String) := do
  let qty_per_meter ←
    match pyFloat ((item.quantity).getD (.num 0)) with
    | some q => pure q
    | none => throw "ValueError: could not convert BOM quantity"
  match materials.find? (fun m =>
      match item.material_id with
      | some (.str s) => m.material_id = s
      | _ => false) with
  | some mat =>
    let base_rate := mat.base_cost_per_unit.getD 0
    let mkt_factor := mat.current_market_factor.getD 1
    let final_rate := base_rate * mkt_factor
    let line_cost := qty_per_meter * final_rate * total_qty_mtr
    if mat.volatility_risk_level = some "High" then
      let risk_val := line_cost * (2 / 100)
      pure (acc.1 + line_cost, acc.2.1 + risk_val,
        acc.2.2 ++ ["   - " ++ pyStr (getJ mat.material_name) ++ ": " ++
          floatStr qty_per_meter ++ " units/m (High Volatility Risk +" ++
          toString (pyTrunc risk_val) ++ ")"])
    else
      pure (acc.1 + line_cost, acc.2.1,
        acc.2.2 ++ ["   - " ++ pyStr (getJ mat.material_name) ++ ": " ++
          floatStr qty_per_meter ++ " units/m @ " ++ fmt2f final_rate])
  | none =>
    pure (acc.1 + qty_per_meter * 500 * total_qty_mtr, acc.2.1, acc.2.2)

/-- `PricingEngine.calculate_micro_bom_cost`: explode the BOM into
`(total manufacturing cost, total weight kg, breakdown, risk buffer,
overhead)`.  An unknown product id short-circuits to the flat estimate
`(qty × 1500, qty × 2.5, estimate note, 0, 0)`. -/
def calculate_micro_bom_cost (product_id : JVal) (total_qty_mtr : ℚ)
    (products : List Product) (materials : List Material) :
    Except String (ℚ × ℚ × List String × ℚ × ℚ) := do
  match products.find? (fun p => pyStr (getJ p.product_id) = pyStr product_id) with
  | none =>
    return (total_qty_mtr * 1500, total_qty_mtr * 2.5,
      ["Product Master Missing - Using Estimate"], 0, 0)
  | some prod =>
    let bom0 := prod.bill_of_materials.getD []
    let bom := if bom0.isEmpty then prod.bill_of_materials_enriched.getD [] else bom0
    let (mat_cost_total, risk_buffer_total, breakdown) ←
      if bom.isEmpty then
        let base_rate := (prod.commercial.getD {}).base_manufacturing_cost.getD 1000
        pure (base_rate * total_qty_mtr, (0 : ℚ),
          ["  > Base Rate Applied: " ++ decStr base_rate ++ "/m"])
      else
        bom.foldlM (bomStep total_qty_mtr materials)
          ((0 : ℚ), (0 : ℚ), ([] : List String))
    let mfg_overhead := mat_cost_total * (12 / 100)
    let weight_per_km := (prod.performance_data.getD {}).approx_weight_kg_km.getD 1000
    let total_weight_kg := weight_per_km / 1000 * total_qty_mtr
    let total_mfg_cost := mat_cost_total + mfg_overhead + risk_buffer_total
    return (total_mfg_cost, total_weight_kg, breakdown, risk_buffer_total, mfg_overhead)

/-- `PricingEngine.analyze_factory_load`: average utilization of the
production lines of the product's category; above 90% a +5% scarcity
premium, below 30% a −3% idle discount, otherwise no adjustment. -/
def analyze_factory_load (product_id : JVal) (factory : List Batch) : ℚ × String :=
  let category := if strContains (pyUpper (pyStr product_id)) "33KV" then "HV" else "LT"
  let relevant_batches := factory.filter
    (fun b => strContains (b.production_line_id.getD "") category)
  if relevant_batches.isEmpty then (0, "Standard Capacity Load")
  else
    let avg_util := (relevant_batches.map (·.utilization_percent)).sum /
      relevant_batches.length
    if avg_util > 90 then
      (5 / 100, "Factory Overload (" ++ fmt1f avg_util ++
        "%) - Scarcity Premium (+5%) Generated")
    else if avg_util < 30 then
      (-(3 / 100), "Factory Idle (" ++ fmt1f avg_util ++
        "%) - Efficiency Discount (-3%) Applied")
    else (0, "Factory Load Normal (" ++ fmt1f avg_util ++ "%)")

/-- The ordered keyword → zone-type table of `determine_logistics_zone`
(Python dict literals iterate in insertion order). -/
def zoneKeywords : List (String × String) :=
  [("hilly", "Hilly"), ("mountain", "Hilly"), ("remote", "Hilly"),
   ("coastal", "Coastal"), ("port", "Coastal"), ("sea", "Coastal"),
   ("desert", "Desert"), ("rajasthan", "Desert"), ("kutch", "Desert"),
   ("island", "Island"), ("andaman", "Island"),
   ("urban", "Urban"), ("city", "Urban"), ("metro", "Urban")]

/-- `PricingEngine.determine_logistics_zone`: first matching keyword picks
the zone type (default `Plains_Highway`), then the first zone whose type
contains it; failing that, the zone with code `Z-01`, else nothing. -/
def determine_logistics_zone (location_name : String) (zones : List Zone) :
    Option Zone :=
  let loc_lower := pyLower location_name
  let detected_type :=
    ((zoneKeywords.find? (fun kv => strContains loc_lower kv.1)).map (·.2)).getD
      "Plains_Highway"
  match zones.find? (fun z => strContains (pyLower z.zone_type) (pyLower detected_type)) with
  | some z => some z
  | none => zones.find? (fun z => z.zone_code = "Z-01")

/-- The record returned by `calculate_logistics`. -/
structure LogisticsResult where
  final_logistics : ℚ
  formula : String
  risk_pct : ℚ
  zone_type : String
  tons_used : ℚ
deriving Repr, DecidableEq

/-- `PricingEngine.calculate_logistics`: billed tons are the weight in tons
floored at `1.0`; freight is tons × km × zone rate × surcharge, plus a 10%
fuel surcharge, an insurance estimate and per-ton handling.  With an empty
zone table the unguarded `self.db["LOGISTICS"][0]` raises `IndexError`. -/
def calculate_logistics (weight_kg distance_km : ℚ) (location_name : String)
    (zones : List Zone) : Except String LogisticsResult := do
  let zone ←
    match determine_logistics_zone location_name zones with
    | some z => pure z
    | none =>
      match zones with
      | [] => throw "IndexError: list index out of range"
      | z :: _ => pure z
  let rate := zone.transport_rate_per_ton_km.getD 5
  let surcharge := zone.surcharge_multiplier.getD 1
  let risk_pct := zone.risk_factor_percent.getD 0
  let tons0 := weight_kg / 1000
  let tons := if tons0 < 1 then 1 else tons0
  let base_freight := tons * distance_km * rate
  let total_freight := base_freight * surcharge
  let fuel := total_freight * (10 / 100)
  let insurance := total_freight * 100 * (5 / 1000)
  let handling := tons * 500
  let final_logistics := total_freight + fuel + insurance + handling
  let formula := "(" ++ fmt2f tons ++ "T x " ++ floatStr distance_km ++ "km x " ++
    decStr rate ++ " Rate x " ++ decStr surcharge ++ " Zone (" ++
    zone.zone_code ++ "))"
  return ⟨final_logistics, formula, risk_pct, zone.zone_type, tons⟩

/-- `PricingEngine.analyze_financials`: credit days from the payment-terms
text (90/60/Advance patterns, default 30), loyalty discount from the tier
(Gold −3%, Silver −1.5%), interest at 12% p.a. pro-rated over the credit
days.  An unknown client keeps the 30-day / no-discount defaults. -/
def analyze_financials (client_name : String) (total_value : ℚ)
    (clients : List Client) : ℚ × ℕ × ℚ :=
  let client := clients.find?
    (fun c => strContains (pyLower client_name) (pyLower c.client_name))
  let (credit_days, loyalty_disc) :=
    match client with
    | none => ((30 : ℕ), (0 : ℚ))
    | some c =>
      let terms := c.payment_terms.getD "30 Days"
      let days : ℕ :=
        if strContains terms "90" then 90
        else if strContains terms "60" then 60
        else if strContains terms "Advance" then 0
        else 30
      let disc : ℚ :=
        if c.loyalty_status = some "Gold" then -(3 / 100)
        else if c.loyalty_status = some "Silver" then -(15 / 1000)
        else 0
      (days, disc)
  let interest_cost := total_value * ((12 / 100) * credit_days / 365)
  (interest_cost, credit_days, loyalty_disc)

/-- The per-rival concession rule of the catalogue `solve_game_theory`:
aggression ≥ 8 → 3%, else win-rate > 0.6 → 2%, else a Tier-3 rival → 4%,
else no concession. -/
def rivalImpact (rival : Competitor) : ℚ × String :=
  if rival.aggression_score ≥ 8 then
    (3 / 100, "Price War Alert: " ++ rival.name ++ " (Aggressive) -> -3% Margin")
  else if rival.win_rate_against_us.getD 0 > 6 / 10 then
    (2 / 100, "High Threat: " ++ rival.name ++ " (High Win Rate) -> -2% Margin")
  else if strContains (rival.tier.getD "") "Tier-3" then
    (4 / 100, "Low-Cost Rival: " ++ rival.name ++ " -> -4% Margin")
  else (0, "")

/-- How `solve_game_theory` resolves one competitor code: the first record
whose name occurs in the code (case-insensitively) or whose id equals it. -/
def findRival (competitors : List Competitor) (comp_input : String) :
    Option Competitor :=
  competitors.find? (fun c =>
    strContains (pyLower comp_input) (pyLower c.name) || c.competitor_id = comp_input)

/-- One iteration of the competitor loop in the catalogue
`solve_game_theory`: an unmatched code is skipped; a matched rival with a
positive concession records its rationale and bumps the running maximum. -/
def gameStep (competitors : List Competitor) (acc : ℚ × List String)
    (comp_input : String) : ℚ × List String :=
  match findRival competitors comp_input with
  | none => acc
  | some rival =>
    let (impact, note) := rivalImpact rival
    if impact > 0 then
      (if impact > acc.1 then impact else acc.1, acc.2 ++ [note])
    else acc

/-- The concessions (impact, rationale) actually triggered by a code list:
one entry per code that resolves to a rival with a positive concession. -/
def matchedImpacts (competitor_codes : List String)
    (competitors : List Competitor) : List (ℚ × String) :=
  competitor_codes.filterMap (fun code =>
    match findRival competitors code with
    | none => none
    | some rival =>
      let im := rivalImpact rival
      if im.1 > 0 then some im else none)

/-- The catalogue `PricingEngine.solve_game_theory`: track the single
largest concession over all matched rivals; with more than one matched
rival add a 0.5% market-pressure buffer per extra rival and an extra
rationale line.  Returns `(margin adjustment, reasons)`. -/
def solve_game_theory (competitor_codes : List String)
    (competitors : List Competitor) : ℚ × List String :=
  let (max_impact, reasons) := competitor_codes.foldl (gameStep competitors)
    ((0 : ℚ), ([] : List String))
  let count := reasons.length
  if count > 1 then
    let buffer := (count - 1 : ℕ) * (5 / 1000 : ℚ)
    (-(max_impact + buffer),
      reasons ++ ["Market Pressure Buildup (" ++ toString (count - 1) ++
        " extra rivals): -" ++ fmt1f (buffer * 100) ++ "%"])
  else (-max_impact, reasons)

end Pricing

namespace Pricing

open TechAgent (getJ)

/-- The legacy `PricingEngine.solve_game_theory`
(legacy_agents/Agents/pricing_Agent/pricing_agent.py, lines 227-249): the
concessions of all matched rivals are *summed* (`margin_adj -= ...`), with
no market-pressure term.  `win_rate_against_us` and (when reached) `tier`
are mandatory `[]` accesses there. -/
def legacy_solve_game_theory (competitor_names : List String)
    (competitors : List Competitor) : Except String (ℚ × List String) :=
  competitor_names.foldlM
    (fun (acc : ℚ × List String) comp_input =>
      match findRival competitors comp_input with
      | none => pure acc
      | some rival => do
        let win_rate ←
          match rival.win_rate_against_us with
          | some w => pure w
          | none => throw "KeyError: win_rate_against_us"
        if rival.aggression_score ≥ 8 then
          pure (acc.1 - 3 / 100,
            acc.2 ++ ["Price War Alert: " ++ rival.name ++ " (Aggressive)"])
        else if win_rate > 6 / 10 then
          pure (acc.1 - 2 / 100,
            acc.2 ++ ["High Threat: " ++ rival.name ++ " (High Win Rate)"])
        else
          match rival.tier with
          | none => throw "KeyError: tier"
          | some tier =>
            if strContains tier "Tier-3" then
              pure (acc.1 - 4 / 100,
                acc.2 ++ ["Low-Cost Rival: " ++ rival.name])
            else pure acc)
    ((0 : ℚ), ([] : List String))

/-- One matched line item as `RealPricingAgent.process_pricing` reads it
from `tech_agent_output.matched_line_items`. -/
structure PricingItem where
  matched_sku_id : Option JVal := none
  matched_sku_name : Option JVal := none
  quantity : Option JVal := none
deriving Repr

/-- One entry of `product_breakdowns`. -/
structure ProductBreakdown where
  name : JVal
  qty : ℚ
  cost : ℚ
  pkg : ℚ
  test : ℚ
  test_breakdown : List String
deriving Repr

/-- The computation state `process_pricing` produces (the numeric fields
and rationale lists of `financial_summary` / `audit_details`; PDF rendering
and the JSON envelope are excluded I/O plumbing). -/
structure PricingOutput where
  total_mfg : ℚ
  total_pkg : ℚ
  total_test : ℚ
  total_weight_all : ℚ
  log_cost : ℚ
  log_formula : String
  log_risk_pct : ℚ
  zone_name : String
  fact_adj_pct : ℚ
  fin_cost : ℚ
  credit_days : ℕ
  loy_disc : ℚ
  comp_adj : ℚ
  strategy_notes : List String
  target_margin : ℚ
  final_margin : ℚ
  full_cost_base : ℚ
  bid_value : ℚ
  audit_lines : List String
  product_breakdowns : List ProductBreakdown
deriving Repr

/-- `item.get('quantity') or 0`, converted with `float` and then clamped:
only an exactly-zero quantity is replaced by the 1000.0 safety default. -/
def pricing_qty (quantity : Option JVal) : Except String ℚ :=
  match TechAgent.qty_or_zero quantity with
  | some q => .ok (if q = 0 then 1000 else q)
  | none => .error "ValueError: could not convert quantity"

/-- The per-item detailed-costing pass of `process_pricing` (section A):
micro-BOM, packaging drums, testing costs. -/
def costItem (db : Db) (required_tests : List String) (item : PricingItem) :
    Except String (ℚ × ℚ × ℚ × ℚ × List String × ProductBreakdown) := do
  let pid := (item.matched_sku_id).getD (.str "UNKNOWN")
  let qty ← pricing_qty item.quantity
  let (mfg, wt, breakdown, _risk, _oh) ←
    calculate_micro_bom_cost pid qty db.products db.materials
  let drums : ℤ := ratCeil (qty / 500)
  let p_cost := (drums : ℚ) *
    (if strContains (pyUpper (pyStr pid)) "33KV" then 12000 else 4500)
  let (t_cost, t_breakdown) :=
    if required_tests.isEmpty then
      let is_hv := strContains (pyUpper (pyStr pid)) "33KV"
      let c : ℚ := if is_hv then 15000 else 5000
      (c, ["- Standard Tests (Est): " ++ decStr c])
    else
      required_tests.foldl
        (fun (acc : ℚ × List String) t_code =>
          match db.tests.find? (fun t => t.test_id = t_code) with
          | none => acc
          | some test_obj =>
            let c0 := test_obj.base_test_cost.getD 0
            let c := if strContains (test_obj.test_category.getD "") "Routine" then
                c0 * (drums : ℚ)
              else c0
            (acc.1 + c,
             acc.2 ++ ["- " ++ String.mk (test_obj.test_name.toList.take 30) ++
               ": " ++ fmtComma0 c]))
        ((0 : ℚ), ([] : List String))
  return (mfg, wt, p_cost, t_cost, breakdown.take 2,
    { name := (item.matched_sku_name).getD pid, qty := qty, cost := mfg,
      pkg := p_cost, test := t_cost, test_breakdown := t_breakdown })

/-- `RealPricingAgent.process_pricing`, from the extracted RFP inputs to
the final margin and bid value.  `target_margin` is
`CONFIG.FINANCIAL.TARGET_NET_MARGIN` (0.22 unless `settings.json`
overrides `base_margin_percent`); the survival floor is the fixed
`MIN_SURVIVAL_MARGIN = 0.04`, which no setting overrides. -/
def process_pricing (items : List PricingItem) (client_name : String)
    (delivery_loc : String) (dist_km : ℚ) (required_test_codes : List String)
    (competitor_codes : List String) (db : Db) (target_margin : ℚ) :
    Except String PricingOutput := do
  let costed ← items.mapM (costItem db required_test_codes)
  let total_mfg := (costed.map (·.1)).sum
  let total_weight_all := (costed.map (·.2.1)).sum
  let total_pkg := (costed.map (·.2.2.1)).sum
  let total_test := (costed.map (·.2.2.2.1)).sum
  let audit_lines := (costed.map (·.2.2.2.2.1)).flatten
  let product_breakdowns := costed.map (·.2.2.2.2.2)
  let logRes ← calculate_logistics total_weight_all dist_km delivery_loc db.logistics
  let first_pid : JVal :=
    match items with
    | [] => .str "UNKNOWN"
    | it :: _ => getJ it.matched_sku_id
  let (fact_adj_pct, fact_reason) := analyze_factory_load first_pid db.factory
  let notesA := if fact_adj_pct ≠ 0 then [fact_reason] else []
  let base_cost := total_mfg + total_pkg + total_test + logRes.final_logistics
  let (fin_cost, credit_days, loy_disc) :=
    analyze_financials client_name base_cost db.clients
  let notesB := notesA ++
    (if fin_cost > 0 then
      ["Credit Cost (" ++ toString credit_days ++ " days): +INR " ++
        toString (pyTrunc fin_cost)]
     else []) ++
    (if loy_disc ≠ 0 then
      ["Loyalty Discount: " ++ floatStr (loy_disc * 100) ++ "%"]
     else [])
  let (comp_adj, comp_notes) := solve_game_theory competitor_codes db.competitors
  let notesC := notesB ++ comp_notes
  let notesD := notesC ++
    (if logRes.risk_pct > 0 then
      ["Zone Risk (" ++ logRes.zone_type ++ "): +" ++
        floatStr (logRes.risk_pct * 100) ++ "%"]
     else [])
  let raw_margin := target_margin + fact_adj_pct + loy_disc + comp_adj + logRes.risk_pct
  let final_margin := if raw_margin < 4 / 100 then 4 / 100 else raw_margin
  let strategy_notes := if raw_margin < 4 / 100 then
      notesD ++ ["EMERGENCY: Margin Floor Hit (Survival Mode)"]
    else notesD
  let full_cost_base := base_cost + fin_cost
  let bid_value := full_cost_base * (1 + final_margin)
  return {
    total_mfg := total_mfg, total_pkg := total_pkg, total_test := total_test,
    total_weight_all := total_weight_all,
    log_cost := logRes.final_logistics, log_formula := logRes.formula,
    log_risk_pct := logRes.risk_pct, zone_name := logRes.zone_type,
    fact_adj_pct := fact_adj_pct, fin_cost := fin_cost,
    credit_days := credit_days, loy_disc := loy_disc, comp_adj := comp_adj,
    strategy_notes := strategy_notes, target_margin := target_margin,
    final_margin := final_margin, full_cost_base := full_cost_base,
    bid_value := bid_value, audit_lines := audit_lines,
    product_breakdowns := product_breakdowns }

end Pricing

/-! ## `RealPriorityAgent` (techathon_app/agents/priority_agent.py) -/

namespace Priority

/-- One record of `central_rfp_database.json` as the ranking pass reads it.
The three sub-scores are carried as given inputs: product fit, relationship
and urgency are computed from reference data and `datetime.now()` (urgency
is wall-clock dependent), while the composite-score and ranking logic below
embeds `recalculate_all_priorities` lines 177-243 exactly. -/
structure PRecord where
  rfp_unique_id : String
  is_archived : Bool
  p_score : ℚ
  r_score : ℚ
  u_score : ℚ
deriving Repr, DecidableEq

/-- The multiplicative priority of one non-archived record:
`P(win) = (fit + relationship) / 2`, then `P(win) * (1 + 0.5 * urgency)`. -/
def total_score (r : PRecord) : ℚ :=
  ((r.p_score + r.r_score) / 2) * (1 + (1 / 2) * r.u_score)

/-- The `sales_agent_2_output` value written back per record (`breakdown`
sub-scores omitted; they are rounded copies of the inputs). -/
structure AgentOut where
  rank : ℤ
  priority_score : ℚ
  status : Option String
deriving Repr, DecidableEq

/-- The `scored_rfps` list: one `(id, total)` entry per non-archived record,
in database order. -/
def scored_rfps (rfps : List PRecord) : List (String × ℚ) :=
  (rfps.filter (fun r => !r.is_archived)).map
    (fun r => (r.rfp_unique_id, total_score r))

/-- Descending-by-score comparison used by `scored_rfps.sort(key=...,
reverse=True)`. -/
def scoreGE (a b : String × ℚ) : Prop := b.2 ≤ a.2

instance : DecidableRel scoreGE := fun a b => inferInstanceAs (Decidable (b.2 ≤ a.2))

instance : IsTotal (String × ℚ) scoreGE := ⟨fun a b => le_total b.2 a.2⟩

instance : IsTrans (String × ℚ) scoreGE :=
  ⟨fun _ _ _ h1 h2 => le_trans h2 h1⟩

/-- The sorted score list (Python's stable sort, highest total first;
insertion sort with `scoreGE` has the same stable semantics). -/
def sorted_rfps (rfps : List PRecord) : List (String × ℚ) :=
  List.insertionSort scoreGE (scored_rfps rfps)

/-- `rank_map = {item['id']: i+1 for i, item in enumerate(scored_rfps)}`
after the sort: a dict comprehension keeps the *last* write for a repeated
id. -/
def rank_map (sorted : List (String × ℚ)) (rid : String) : Option ℕ :=
  ((sorted.enum.filter (fun p => p.2.1 = rid)).getLast?).map (fun p => p.1 + 1)

/-- `next(x for x in scored_rfps if x['id'] == rid)` over the sorted list
(only evaluated under the `rid in rank_map` guard, so the default is never
reached). -/
def score_of (sorted : List (String × ℚ)) (rid : String) : ℚ :=
  ((sorted.find? (fun x => x.1 = rid)).map (·.2)).getD 0

/-- The `sales_agent_2_output` value assigned to one record by
`recalculate_all_priorities`: loop 1 marks archived records with the
sentinel `{rank: -1, priority_score: 0, status: "Archived"}`; loop 2 then
overwrites every record whose id is a key of `rank_map` with its rank and
0-100 priority score.  `none` means the field is left as it was. -/
def assigned_output (sorted : List (String × ℚ)) (r : PRecord) : Option AgentOut :=
  let after_scoring : Option AgentOut :=
    if r.is_archived then some ⟨-1, 0, some "Archived"⟩ else none
  match rank_map sorted r.rfp_unique_id with
  | some k =>
    some ⟨(k : ℤ), round1 (score_of sorted r.rfp_unique_id * 100), none⟩
  | none => after_scoring

/-- `RealPriorityAgent.recalculate_all_priorities` on one database
snapshot: score and sort the non-archived records, then write each record's
new `sales_agent_2_output`. -/
def recalculate_all_priorities (rfps : List PRecord) :
    List (PRecord × Option AgentOut) :=
  let sorted := sorted_rfps rfps
  rfps.map (fun r => (r, assigned_output sorted r))

end Priority

/-! ## Concrete fixtures used by witnesses and counterexamples -/

/-- A plain default logistics zone (`Z-01`, plains/highway). -/
def zoneZ01 : Pricing.Zone :=
  { zone_code := "Z-01", zone_type := "Plains_Highway",
    transport_rate_per_ton_km := some 5, surcharge_multiplier := some 1,
    risk_factor_percent := some 0 }

/-- The logistics result for a sub-ton shipment over 500 km through
`zoneZ01`: billed as one full ton. -/
def logResZ01 : Pricing.LogisticsResult :=
  { final_logistics := 4500, formula := "(1.00T x 500.0km x 5 Rate x 1 Zone (Z-01))",
    risk_pct := 0, zone_type := "Plains_Highway", tons_used := 1 }

/-- A very aggressive rival (aggression 9 → 3% concession). -/
def rivalAlpha : Pricing.Competitor :=
  { competitor_id := "C-01", name := "Alpha", aggression_score := 9,
    win_rate_against_us := some (1 / 2), tier := some "Tier-1" }

/-- A high-win-rate rival (win rate 0.7 → 2% concession). -/
def rivalBeta : Pricing.Competitor :=
  { competitor_id := "C-02", name := "Beta", aggression_score := 5,
    win_rate_against_us := some (7 / 10), tier := some "Tier-1" }

/-- A minimal warehouse: only the default logistics zone is present. -/
def c2_db : Pricing.Db := { logistics := [zoneZ01] }

/-- The pricing output of an empty-item RFP against `c2_db` with target
margin 0 (so the survival floor must fire). -/
def c2_out : Pricing.PricingOutput :=
  match Pricing.process_pricing [] "Nobody" "Ex-Works" 500 [] [] c2_db 0 with
  | .ok o => o
  | .error _ =>
    { total_mfg := 0, total_pkg := 0, total_test := 0, total_weight_all := 0,
      log_cost := 0, log_formula := "", log_risk_pct := 0, zone_name := "",
      fact_adj_pct := 0, fin_cost := 0, credit_days := 0, loy_disc := 0,
      comp_adj := 0, strategy_notes := [], target_margin := 0,
      final_margin := 0, full_cost_base := 0, bid_value := 0,
      audit_lines := [], product_breakdowns := [] }

/-- An RFP line-item requirement map whose voltage is the explicit wildcard
`"NOT SPECIFIED"` and whose other fields match `invC1` exactly. -/
def rfpC1 : TechAgent.TechSpecs :=
  { voltage_grade := some (.str "NOT SPECIFIED"), core_count := some (.num 4),
    cross_section_sqmm := some (.num 400), conductor_material := some (.str "Copper"),
    standards := some (.arr [.str "IS 694"]), insulation := some (.str "PVC"),
    sheath := some (.str "PVC"), armour_type := some (.str "GI Steel") }

/-- A candidate product's specs: identical to `rfpC1` except that its
voltage grade is the concrete `"1100V"`. -/
def invC1 : TechAgent.TechSpecs :=
  { voltage_grade := some (.str "1100V"), core_count := some (.num 4),
    cross_section_sqmm := some (.num 400), conductor_material := some (.str "Copper"),
    standards := some (.arr [.str "IS 694"]), insulation := some (.str "PVC"),
    sheath := some (.str "PVC"), armour_type := some (.str "GI Steel") }

/-- A three-record portfolio with one archived entry and distinct ids. -/
def rfpsC6 : List Priority.PRecord :=
  [{ rfp_unique_id := "RFP-1", is_archived := false,
     p_score := 1 / 2, r_score := 1 / 2, u_score := 0 },
   { rfp_unique_id := "RFP-2", is_archived := true,
     p_score := 1, r_score := 1, u_score := 1 },
   { rfp_unique_id := "RFP-3", is_archived := false,
     p_score := 1, r_score := 9 / 10, u_score := 1 / 2 }]

/-! ## Rounding lemmas -/

theorem ratFloor_eq_floor (x : ℚ) : ratFloor x = ⌊x⌋ := Rat.floor_def.symm

theorem rhe_nonneg {x : ℚ} (h : 0 ≤ x) : 0 ≤ rhe x := by
  unfold rhe
  rw [ratFloor_eq_floor]
  have hf : (0 : ℤ) ≤ ⌊x⌋ := Int.le_floor.2 (by exact_mod_cast h)
  split_ifs <;> omega

theorem rhe_nonpos {x : ℚ} (h : x ≤ 0) : rhe x ≤ 0 := by
  unfold rhe
  rw [ratFloor_eq_floor]
  have hf : ⌊x⌋ ≤ 0 := Int.floor_nonpos h
  rcases lt_or_eq_of_le hf with hlt | heq
  · split_ifs <;> omega
  · have hx : x = 0 := by
      have h0 : (0 : ℚ) ≤ x := by
        have := Int.floor_le x
        rw [heq] at this
        exact_mod_cast this
      linarith
    subst hx
    norm_num [heq]

theorem round3_nonneg {x : ℚ} (h : 0 ≤ x) : 0 ≤ round3 x := by
  unfold round3
  have : (0 : ℤ) ≤ rhe (x * 1000) := rhe_nonneg (by positivity)
  positivity

theorem round3_nonpos {x : ℚ} (h : x ≤ 0) : round3 x ≤ 0 := by
  unfold round3
  have h1 : rhe (x * 1000) ≤ 0 := rhe_nonpos (by nlinarith)
  have h2 : ((rhe (x * 1000) : ℚ)) ≤ 0 := by exact_mod_cast h1
  linarith

theorem round3_zero : round3 0 = 0 := by
  with_unfolding_all decide

/-- `max(0.0, round(s, 3))` agrees with rounding `max(0, s)`: the clamp and
the rounding commute. -/
theorem max_round3_comm (s : ℚ) : max 0 (round3 s) = round3 (max 0 s) := by
  rcases le_total s 0 with h | h
  · rw [max_eq_left (round3_nonpos h), max_eq_left h, round3_zero]
  · rw [max_eq_right (round3_nonneg h), max_eq_right h]

/-! ## C4 -/

/-- **C4.** For a numeric requirement `r ≠ 0` and numeric candidate `c`, the
cross-section field score is exactly `max(0, 1 − |c − r| / r)` rounded to
three decimals — linearly decaying and floored at zero (`r = 400, c = 380 →
0.95`; `r = 400, c = 0 → 0`, witnessed below). -/
theorem c4_cross_section_formula (r c : ℚ) (h : r ≠ 0) :
    TechAgent.match_cross_section (.num r) (.num c) =
      .ok (round3 (max 0 (1 - |c - r| / r))) := by
  unfold TechAgent.match_cross_section
  simp only [TechAgent.is_not_specified, pyFloat, Bool.false_eq_true, if_false]
  rw [if_neg h, ← max_round3_comm]

/-- Witness for C4 at the documented inputs: `r = 400, c = 380` scores
`0.95`, and `r = 400, c = 0` scores `0`. -/
theorem c4_witness :
    TechAgent.match_cross_section (.num 400) (.num 380) = .ok (19 / 20) ∧
    TechAgent.match_cross_section (.num 400) (.num 0) = .ok 0 := by
  constructor
  · rw [c4_cross_section_formula 400 380 (by norm_num)]
    with_unfolding_all decide
  · rw [c4_cross_section_formula 400 0 (by norm_num)]
    with_unfolding_all decide

/-! ## C5 -/

theorem sum_map_ite_count {α : Type _} (l : List α) (p : α → Bool) (w : ℚ) :
    (l.map (fun o => if p o then w else 0)).sum = (l.countP p : ℚ) * w := by
  induction l with
  | nil => simp
  | cons a t ih =>
    by_cases hp : p a
    · simp only [List.map_cons, List.sum_cons, List.countP_cons, hp, if_true, ih]
      push_cast
      ring
    · simp only [List.map_cons, List.sum_cons, List.countP_cons, hp, if_false, ih]
      simp [hp]

/-- **C5.** For a non-empty required-standards list, `match_standards`
splits weight 1.0 evenly: the score is (number of satisfied requirements) /
(number of requirements), rounded to three decimals, where a requirement is
satisfied iff it normalizes to the generic quality mark `"isi marked"` or
its normalized form appears among the candidate's normalized standards. -/
theorem c5_standards_even_split (reqs invs : List JVal) (h : reqs ≠ []) :
    TechAgent.match_standards (.arr reqs) (.arr invs) =
      .ok (round3 (((reqs.map TechAgent.normalize_standard).countP
        (TechAgent.stdSatisfied (invs.map TechAgent.normalize_standard)) : ℚ) /
        reqs.length)) := by
  have hfalsy : pyFalsy (.arr reqs) = false := by
    cases reqs with
    | nil => exact absurd rfl h
    | cons a t => simp [pyFalsy]
  have hlen : (reqs.length : ℚ) ≠ 0 := by
    simpa using h
  unfold TechAgent.match_standards
  rw [hfalsy]
  simp only [Bool.false_eq_true, if_false, TechAgent.asStdList, bind, Except.bind,
    List.length_map, pure, Except.pure]
  rw [if_neg (by simpa using h)]
  rw [sum_map_ite_count]
  rw [mul_one_div]

/-- Witness for C5: two required standards with exactly one satisfied
(`IS 694:1990` normalizes to `is 694`, present; `IS 8130` absent) score
exactly `0.5`. -/
theorem c5_witness :
    TechAgent.match_standards (.arr [.str "IS 694:1990", .str "IS 8130"])
      (.arr [.str "IS 694"]) = .ok (1 / 2) := by
  rw [c5_standards_even_split _ _ (by simp)]
  with_unfolding_all decide

/-! ## C10 -/

/-- **C10.** `calculate_logistics` floors the billed tonnage at one ton:
any weight below 1000 kg prices exactly like a 1000 kg shipment (same
freight, surcharges, handling and formula), and the tonnage used is always
at least 1. -/
theorem c10_logistics_one_ton_floor :
    (∀ (w d : ℚ) (loc : String) (zones : List Pricing.Zone), w < 1000 →
      Pricing.calculate_logistics w d loc zones =
        Pricing.calculate_logistics 1000 d loc zones) ∧
    (∀ (w d : ℚ) (loc : String) (zones : List Pricing.Zone)
      (res : Pricing.LogisticsResult),
      Pricing.calculate_logistics w d loc zones = .ok res → 1 ≤ res.tons_used) := by
  constructor
  · intro w d loc zones hw
    unfold Pricing.calculate_logistics
    have ht : (if w / 1000 < 1 then (1 : ℚ) else w / 1000) =
        (if (1000 : ℚ) / 1000 < 1 then (1 : ℚ) else 1000 / 1000) := by
      rw [if_pos (by linarith), if_neg (by norm_num)]
      norm_num
    cases hz : Pricing.determine_logistics_zone loc zones with
    | some z =>
      simp only [hz, bind, Except.bind, pure, Except.pure]
      rw [ht]
    | none =>
      cases zones with
      | nil => simp [hz, throw, throwThe, MonadExceptOf.throw, Except.map]
      | cons z t =>
        simp only [hz, bind, Except.bind, pure, Except.pure]
        rw [ht]
  · intro w d loc zones res hres
    unfold Pricing.calculate_logistics at hres
    have htons : ∀ t0 : ℚ, (1 : ℚ) ≤ if t0 < 1 then 1 else t0 := by
      intro t0
      split_ifs with h0
      · exact le_refl 1
      · linarith [not_lt.1 h0]
    cases hz : Pricing.determine_logistics_zone loc zones with
    | some z =>
      simp only [hz, bind, Except.bind, pure, Except.pure, Except.ok.injEq] at hres
      rw [← hres]
      exact htons _
    | none =>
      cases zones with
      | nil => simp [hz, throw, throwThe, MonadExceptOf.throw, Except.map] at hres
      | cons z t =>
        simp only [hz, bind, Except.bind, pure, Except.pure, Except.ok.injEq] at hres
        rw [← hres]
        exact htons _

/-- Witness for C10: a zero-weight shipment over 500 km through the default
zone is billed exactly like a one-ton shipment, and its billed tonnage is 1. -/
theorem c10_witness :
    Pricing.calculate_logistics 0 500 "Ex-Works" [zoneZ01] =
      Pricing.calculate_logistics 1000 500 "Ex-Works" [zoneZ01] ∧
    (1 : ℚ) ≤ logResZ01.tons_used :=
  ⟨c10_logistics_one_ton_floor.1 0 500 "Ex-Works" [zoneZ01] (by norm_num),
   c10_logistics_one_ton_floor.2 0 500 "Ex-Works" [zoneZ01] logResZ01
     (by with_unfolding_all rfl)⟩

/-! ## C7 -/

/-- Counterexample to C7 as stated: a *negative* quantity is not replaced
by a positive minimum default — `quantity = -5` flows through
`float(item.get('quantity') or 0)` unchanged (it is truthy and non-zero),
so the quantity used downstream is `-5`, which is not strictly positive. -/
theorem c7_counterexample :
    Pricing.pricing_qty (some (.num (-5))) = .ok (-5) ∧ ¬ (0 : ℚ) < -5 :=
  ⟨by with_unfolding_all rfl, by norm_num⟩

/-- **C7 (amended).** A missing, `None`, empty or exactly-zero quantity is
replaced by the 1000.0 safety default in the pricing stage, and any
non-negative numeric quantity yields a strictly positive working quantity;
the testing-cost estimate separately floors its drum count at one
(`max(1, qty / 500)`).  Negative quantities are not clamped. -/
theorem c7_amended_quantity_defaults :
    Pricing.pricing_qty none = .ok 1000 ∧
    (∀ v : JVal, pyFalsy v = true → Pricing.pricing_qty (some v) = .ok 1000) ∧
    (∀ x : ℚ, 0 ≤ x → ∀ q : ℚ,
      Pricing.pricing_qty (some (.num x)) = .ok q → 0 < q) ∧
    (∀ qty : ℚ, 1 ≤ TechAgent.tech_drums qty) := by
  refine ⟨by with_unfolding_all rfl, ?_, ?_, ?_⟩
  · intro v hv
    simp [Pricing.pricing_qty, TechAgent.qty_or_zero, hv, pyFloat]
  · intro x hx q hq
    unfold Pricing.pricing_qty TechAgent.qty_or_zero at hq
    by_cases h0 : x = 0
    · subst h0
      simp [pyFalsy, pyFloat] at hq
      rw [← hq]
      norm_num
    · have hfalsy : pyFalsy (.num x) = false := by simp [pyFalsy, h0]
      simp [hfalsy, pyFloat, h0] at hq
      rw [← hq]
      exact lt_of_le_of_ne hx (Ne.symm h0)
  · intro qty
    exact le_max_left 1 (qty / 500)

/-- Witness for C7 (amended), at concrete inputs: an empty-string quantity
defaults to 1000, quantity 5 stays positive, and a zero quantity still
yields at least one testing drum. -/
theorem c7_witness :
    Pricing.pricing_qty (some (.str "")) = .ok 1000 ∧
    (0 : ℚ) < 5 ∧ (1 : ℚ) ≤ TechAgent.tech_drums 0 :=
  ⟨c7_amended_quantity_defaults.2.1 (.str "") (by with_unfolding_all rfl),
   c7_amended_quantity_defaults.2.2.1 5 (by norm_num) 5 (by with_unfolding_all rfl),
   c7_amended_quantity_defaults.2.2.2 0⟩

/-! ## C1 -/

/-- Counterexample to C1 as stated: the wildcard rule is *not* applied to
every technical field.  With the voltage requirement `"NOT SPECIFIED"`
(which `is_not_specified` recognizes) and candidate voltage `"1100V"`, the
voltage field contributes `0`, not its full weight `20`; consequently an
RFP identical to a candidate except for an unspecified voltage scores
`80.0`, not `100.0`. -/
theorem c1_counterexample :
    TechAgent.is_not_specified (.str "NOT SPECIFIED") = true ∧
    TechAgent.voltage_contrib (some (.str "NOT SPECIFIED")) (some (.str "1100V")) = 0 ∧
    (0 : ℚ) ≠ 20 ∧
    TechAgent.calculate_weighted_score rfpC1 invC1 = .ok 80 :=
  ⟨by with_unfolding_all rfl, by with_unfolding_all rfl, by norm_num,
   by with_unfolding_all rfl⟩

/-- **C1 (amended).** Only the cross-section field implements the wildcard
rule inside `calculate_weighted_score`: an unspecified cross-section
requirement (missing, empty or `"NOT SPECIFIED"`) earns the full weight 15
regardless of the candidate value; the standards field earns its full
weight 15 only when the requirement list is missing or empty.  The other
fields (voltage, core count, material, insulation, sheath, armour) do not
grant full credit for an unspecified requirement value. -/
theorem c1_amended_wildcard :
    (∀ r i : Option JVal, TechAgent.is_not_specified (TechAgent.getJ r) = true →
      TechAgent.cross_section_contrib r i = .ok 15) ∧
    (∀ r i : Option JVal, pyFalsy (TechAgent.getJ r) = true →
      TechAgent.standards_contrib r i = .ok 15) := by
  constructor
  · intro r i hr
    unfold TechAgent.cross_section_contrib TechAgent.match_cross_section
    rw [hr]
    simp [bind, Except.bind, pure, Except.pure]
  · intro r i hr
    unfold TechAgent.standards_contrib TechAgent.match_standards
    rw [hr]
    simp [bind, Except.bind, pure, Except.pure]

/-- Witness for C1 (amended): the wildcard cross-section requirement
`"NOT SPECIFIED"` earns 15 against candidate value 400, and a missing
standards requirement earns 15. -/
theorem c1_witness :
    TechAgent.cross_section_contrib (some (.str "NOT SPECIFIED")) (some (.num 400)) =
      .ok 15 ∧
    TechAgent.standards_contrib none (some (.arr [.str "IS 694"])) = .ok 15 :=
  ⟨c1_amended_wildcard.1 (some (.str "NOT SPECIFIED")) (some (.num 400))
     (by with_unfolding_all rfl),
   c1_amended_wildcard.2 none (some (.arr [.str "IS 694"])) rfl⟩

/-! ## C9 -/

/-- **C9.** With an empty product catalog, `find_best_matches` still emits
one result per line item, carrying the sentinels `"NO_MATCH"` /
`"No Suitable Product Found"`, an empty technical breakdown, an empty
commercial reference and the score `-1`, which lies outside the documented
`[0, 100]` score range. -/
theorem c9_empty_catalog_sentinels (items : List TechAgent.LineItem) :
    TechAgent.find_best_matches items [] = .ok (items.map (fun item =>
      { lot_id := TechAgent.getJ item.lot_id,
        rfp_description := TechAgent.getJ item.raw_description,
        matched_sku_id := .str "NO_MATCH",
        matched_sku_name := .str "No Suitable Product Found",
        match_score := -1,
        quantity := TechAgent.getJ item.quantity,
        technical_breakdown := [],
        commercial_ref := [] })) ∧ (-1 : ℚ) < 0 := by
  refine ⟨?_, by norm_num⟩
  induction items with
  | nil => rfl
  | cons it rest ih =>
    simp only [TechAgent.find_best_matches, List.mapM_cons, List.map_cons] at ih ⊢
    rw [ih]
    rfl

/-! ## C3 -/

theorem if_gt_eq_max (a b : ℚ) : (if b > a then b else a) = max a b := by
  rcases le_or_lt b a with h | h
  · rw [if_neg (not_lt.2 h), max_eq_left h]
  · rw [if_pos h, max_eq_right h.le]

theorem matchedImpacts_cons_none {comps : List Pricing.Competitor} {c : String}
    (cs : List String) (hr : Pricing.findRival comps c = none) :
    Pricing.matchedImpacts (c :: cs) comps = Pricing.matchedImpacts cs comps := by
  simp [Pricing.matchedImpacts, List.filterMap_cons, hr]

theorem matchedImpacts_cons_pos {comps : List Pricing.Competitor} {c : String}
    {rival : Pricing.Competitor} (cs : List String)
    (hr : Pricing.findRival comps c = some rival)
    (him : (Pricing.rivalImpact rival).1 > 0) :
    Pricing.matchedImpacts (c :: cs) comps =
      Pricing.rivalImpact rival :: Pricing.matchedImpacts cs comps := by
  simp [Pricing.matchedImpacts, List.filterMap_cons, hr, him]

theorem matchedImpacts_cons_nonpos {comps : List Pricing.Competitor} {c : String}
    {rival : Pricing.Competitor} (cs : List String)
    (hr : Pricing.findRival comps c = some rival)
    (him : ¬ (Pricing.rivalImpact rival).1 > 0) :
    Pricing.matchedImpacts (c :: cs) comps = Pricing.matchedImpacts cs comps := by
  simp [Pricing.matchedImpacts, List.filterMap_cons, hr, him]

theorem gameStep_none {comps : List Pricing.Competitor} {c : String}
    (acc : ℚ × List String) (hr : Pricing.findRival comps c = none) :
    Pricing.gameStep comps acc c = acc := by
  simp [Pricing.gameStep, hr]

theorem gameStep_pos {comps : List Pricing.Competitor} {c : String}
    {rival : Pricing.Competitor} (acc : ℚ × List String)
    (hr : Pricing.findRival comps c = some rival)
    (him : (Pricing.rivalImpact rival).1 > 0) :
    Pricing.gameStep comps acc c =
      (max acc.1 (Pricing.rivalImpact rival).1,
       acc.2 ++ [(Pricing.rivalImpact rival).2]) := by
  simp only [Pricing.gameStep, hr]
  rw [if_pos him, if_gt_eq_max]

theorem gameStep_nonpos {comps : List Pricing.Competitor} {c : String}
    {rival : Pricing.Competitor} (acc : ℚ × List String)
    (hr : Pricing.findRival comps c = some rival)
    (him : ¬ (Pricing.rivalImpact rival).1 > 0) :
    Pricing.gameStep comps acc c = acc := by
  simp only [Pricing.gameStep, hr]
  rw [if_neg him]

/-- The competitor fold of the catalogue `solve_game_theory` computes the
maximum triggered concession and collects one rationale per triggered
concession. -/
theorem gameFold_spec (comps : List Pricing.Competitor) :
    ∀ (codes : List String) (m0 : ℚ) (rs0 : List String),
      codes.foldl (Pricing.gameStep comps) (m0, rs0) =
        (((Pricing.matchedImpacts codes comps).map (·.1)).foldl max m0,
         rs0 ++ (Pricing.matchedImpacts codes comps).map (·.2)) := by
  intro codes
  induction codes with
  | nil => intro m0 rs0; simp [Pricing.matchedImpacts]
  | cons c cs ih =>
    intro m0 rs0
    rw [List.foldl_cons]
    cases hr : Pricing.findRival comps c with
    | none =>
      rw [gameStep_none _ hr, matchedImpacts_cons_none cs hr]
      exact ih m0 rs0
    | some rival =>
      by_cases him : (Pricing.rivalImpact rival).1 > 0
      · rw [gameStep_pos _ hr him, matchedImpacts_cons_pos cs hr him,
          ih (max m0 (Pricing.rivalImpact rival).1)
            (rs0 ++ [(Pricing.rivalImpact rival).2])]
        rw [List.map_cons, List.map_cons, List.foldl_cons]
        simp [List.append_assoc]
      · rw [gameStep_nonpos _ hr him, matchedImpacts_cons_nonpos cs hr him]
        exact ih m0 rs0

/-- **C3 (amended).** The *catalogue* `solve_game_theory` (the copy invoked
by `process_pricing`) returns as total competitive adjustment the negation
of (largest triggered concession + 0.5% per triggered rival beyond the
first); in the two-rival scenario (one very aggressive → 3%, one
high-win-rate → 2%) that is −3.5%.  The *legacy* copy instead sums the
concessions (see the counterexample, which yields −5% there). -/
theorem c3_amended_worst_case_adjustment :
    (∀ (codes : List String) (comps : List Pricing.Competitor),
      (Pricing.solve_game_theory codes comps).1 =
        -((((Pricing.matchedImpacts codes comps).map (·.1)).foldl max 0) +
          (if 1 < (Pricing.matchedImpacts codes comps).length then
            (((Pricing.matchedImpacts codes comps).length - 1 : ℕ) : ℚ) * (5 / 1000)
           else 0))) ∧
    (Pricing.solve_game_theory ["Alpha", "Beta"] [rivalAlpha, rivalBeta]).1 =
      -(7 / 200) := by
  constructor
  · intro codes comps
    unfold Pricing.solve_game_theory
    rw [gameFold_spec comps codes 0 []]
    simp only [List.nil_append, List.length_map]
    by_cases hk : 1 < (Pricing.matchedImpacts codes comps).length
    · rw [if_pos hk, if_pos hk]
    · rw [if_neg hk, if_neg hk, add_zero]
  · with_unfolding_all rfl

/-- Counterexample to C3 as stated: the legacy `solve_game_theory` *sums*
the concessions — for the very aggressive rival Alpha (3%) plus the
high-win-rate rival Beta (2%) it returns −5%, not −(3% + 0.5%) = −3.5%. -/
theorem c3_counterexample :
    Pricing.legacy_solve_game_theory ["Alpha", "Beta"] [rivalAlpha, rivalBeta] =
      .ok (-(5 / 100),
        ["Price War Alert: Alpha (Aggressive)", "High Threat: Beta (High Win Rate)"]) ∧
    -(5 / 100 : ℚ) ≠ -(3 / 100 + 5 / 1000) :=
  ⟨by with_unfolding_all rfl, by norm_num⟩

/-! ## C2 -/

theorem except_bind_ok {ε α β : Type _} {x : Except ε α} {f : α → Except ε β}
    {b : β} (h : (x >>= f) = .ok b) : ∃ a, x = .ok a ∧ f a = .ok b := by
  cases x with
  | error e => exact absurd h (by simp [Bind.bind, Except.bind])
  | ok a =>
    refine ⟨a, rfl, ?_⟩
    simpa [Bind.bind, Except.bind] using h

/-- **C2.** Whatever the cost base, target margin and adjustment mix, a
successful `process_pricing` run never reports a final margin below the
survival floor `MIN_SURVIVAL_MARGIN = 0.04`; and whenever the clamp fires
(i.e. the raw sum of base + factory + loyalty + competitive + zone-risk
adjustments is below the floor) the explicit floor-hit rationale is in the
strategy notes. -/
theorem c2_margin_floor (items : List Pricing.PricingItem)
    (client_name delivery_loc : String) (dist_km : ℚ) (tests codes : List String)
    (db : Pricing.Db) (target : ℚ) (out : Pricing.PricingOutput)
    (h : Pricing.process_pricing items client_name delivery_loc dist_km tests codes
      db target = .ok out) :
    4 / 100 ≤ out.final_margin ∧
    (out.target_margin + out.fact_adj_pct + out.loy_disc + out.comp_adj +
        out.log_risk_pct < 4 / 100 →
      "EMERGENCY: Margin Floor Hit (Survival Mode)" ∈ out.strategy_notes) := by
  unfold Pricing.process_pricing at h
  obtain ⟨costed, hc, h⟩ := except_bind_ok h
  dsimp only at h
  obtain ⟨logRes, hl, h⟩ := except_bind_ok h
  simp only [pure, Except.pure, Except.ok.injEq] at h
  subst h
  dsimp only
  constructor
  · split_ifs with hraw
    · exact le_refl _
    · exact le_of_not_lt hraw
  · intro hraw
    rw [if_pos hraw]
    exact List.mem_append.2 (Or.inr (List.mem_singleton.2 rfl))

/-- Witness for C2: an empty-item RFP through a minimal warehouse with
target margin 0 drives the raw margin to 0 < 0.04, so the clamp fires: the
final margin is exactly the floor and the floor-hit note is present. -/
theorem c2_witness :
    4 / 100 ≤ c2_out.final_margin ∧
    "EMERGENCY: Margin Floor Hit (Survival Mode)" ∈ c2_out.strategy_notes := by
  have h := c2_margin_floor [] "Nobody" "Ex-Works" 500 [] [] c2_db 0 c2_out
    (by with_unfolding_all rfl)
  exact ⟨h.1, h.2 (by with_unfolding_all decide)⟩

/-! ## C8 -/

theorem foldlM_ok {ε α β : Type _} (f : β → α → Except ε β) (l : List α)
    (h : ∀ b a, a ∈ l → ∃ b2, f b a = .ok b2) :
    ∀ b0, ∃ r, l.foldlM f b0 = .ok r := by
  induction l with
  | nil => intro b0; exact ⟨b0, rfl⟩
  | cons a t ih =>
    intro b0
    obtain ⟨b1, hb1⟩ := h b0 a (List.mem_cons_self a t)
    obtain ⟨r, hr⟩ := ih (fun b x hx => h b x (List.mem_cons_of_mem a hx)) b1
    refine ⟨r, ?_⟩
    rw [List.foldlM_cons, hb1]
    simpa [Bind.bind, Except.bind] using hr

theorem mapM_ok {ε α β : Type _} (f : α → Except ε β) (l : List α)
    (h : ∀ a ∈ l, ∃ b, f a = .ok b) : ∃ rs, l.mapM f = .ok rs := by
  induction l with
  | nil => exact ⟨[], rfl⟩
  | cons a t ih =>
    obtain ⟨b, hb⟩ := h a (List.mem_cons_self a t)
    obtain ⟨rs, hrs⟩ := ih (fun x hx => h x (List.mem_cons_of_mem a hx))
    refine ⟨b :: rs, ?_⟩
    rw [List.mapM_cons, hb, hrs]
    rfl

theorem matchedImpacts_eq_nil {codes : List String}
    {comps : List Pricing.Competitor}
    (h : ∀ c ∈ codes, Pricing.findRival comps c = none) :
    Pricing.matchedImpacts codes comps = [] := by
  induction codes with
  | nil => rfl
  | cons c cs ih =>
    rw [matchedImpacts_cons_none cs (h c (List.mem_cons_self c cs))]
    exact ih (fun x hx => h x (List.mem_cons_of_mem c hx))

theorem except_bind_surv {ε γ δ : Type _} {inner : Except ε γ}
    {k : γ → Except ε δ} (h1 : ∃ t, inner = .ok t)
    (h2 : ∀ t, ∃ r, k t = .ok r) : ∃ r, (inner >>= k) = .ok r := by
  obtain ⟨t, ht⟩ := h1
  obtain ⟨r, hr⟩ := h2 t
  refine ⟨r, ?_⟩
  rw [ht]
  simpa [Bind.bind, Except.bind] using hr


theorem bomStep_ok (qty : ℚ) (materials : List Pricing.Material)
    (acc : ℚ × ℚ × List String) (item : Pricing.BomItem)
    (h : (pyFloat ((Pricing.BomItem.quantity item).getD (.num 0))).isSome) :
    ∃ r, Pricing.bomStep qty materials acc item = .ok r := by
  obtain ⟨q, hq⟩ := Option.isSome_iff_exists.1 h
  unfold Pricing.bomStep
  rw [hq]
  simp only [Bind.bind, Except.bind, pure, Except.pure]
  cases hfm : materials.find? (fun m =>
      match item.material_id with
      | some (.str s) => m.material_id = s
      | _ => false) with
  | none => exact ⟨_, rfl⟩
  | some mat =>
    dsimp only
    split_ifs <;> exact ⟨_, rfl⟩

theorem calculate_micro_bom_cost_ok (pid : JVal) (qty : ℚ)
    (products : List Pricing.Product) (materials : List Pricing.Material)
    (hbom : ∀ p ∈ products,
      ∀ bi ∈ (p.bill_of_materials.getD [] ++ p.bill_of_materials_enriched.getD []),
      (pyFloat ((Pricing.BomItem.quantity bi).getD (.num 0))).isSome) :
    ∃ r, Pricing.calculate_micro_bom_cost pid qty products materials = .ok r := by
  unfold Pricing.calculate_micro_bom_cost
  cases hfind : products.find?
      (fun p => pyStr (TechAgent.getJ p.product_id) = pyStr pid) with
  | none => exact ⟨_, rfl⟩
  | some prod =>
    have hmem : prod ∈ products := List.mem_of_find?_eq_some hfind
    dsimp only
    by_cases hb0 : (prod.bill_of_materials.getD []).isEmpty = true
    · rw [if_pos hb0]
      by_cases hb1 : (prod.bill_of_materials_enriched.getD []).isEmpty = true
      · rw [if_pos hb1]
        exact ⟨_, rfl⟩
      · rw [if_neg hb1]
        apply except_bind_surv
        · apply foldlM_ok
          intro b bi hbi
          exact bomStep_ok qty materials b bi
            (hbom prod hmem bi (List.mem_append_right _ hbi))
        · intro t
          exact ⟨_, rfl⟩
    · rw [if_neg hb0, if_neg hb0]
      apply except_bind_surv
      · apply foldlM_ok
        intro b bi hbi
        exact bomStep_ok qty materials b bi
          (hbom prod hmem bi (List.mem_append_left _ hbi))
      · intro t
        exact ⟨_, rfl⟩

theorem calculate_logistics_ok (w d : ℚ) (loc : String)
    (zones : List Pricing.Zone) (h : zones ≠ []) :
    ∃ r, Pricing.calculate_logistics w d loc zones = .ok r := by
  unfold Pricing.calculate_logistics
  cases hz : Pricing.determine_logistics_zone loc zones with
  | some z => exact ⟨_, rfl⟩
  | none =>
    cases zones with
    | nil => exact absurd rfl h
    | cons z t => exact ⟨_, rfl⟩

theorem costItem_ok (db : Pricing.Db) (tests : List String)
    (item : Pricing.PricingItem)
    (hq : (TechAgent.qty_or_zero (Pricing.PricingItem.quantity item)).isSome)
    (hbom : ∀ p ∈ db.products,
      ∀ bi ∈ (p.bill_of_materials.getD [] ++ p.bill_of_materials_enriched.getD []),
      (pyFloat ((Pricing.BomItem.quantity bi).getD (.num 0))).isSome) :
    ∃ r, Pricing.costItem db tests item = .ok r := by
  obtain ⟨q, hq'⟩ := Option.isSome_iff_exists.1 hq
  unfold Pricing.costItem
  have hpq : Pricing.pricing_qty item.quantity = .ok (if q = 0 then 1000 else q) := by
    unfold Pricing.pricing_qty
    rw [hq']
  rw [hpq]
  simp only [Bind.bind, Except.bind]
  apply except_bind_surv
  · exact calculate_micro_bom_cost_ok _ _ db.products db.materials hbom
  · intro t
    obtain ⟨a, b, c, d2, e⟩ := t
    exact ⟨_, rfl⟩

/-- **C8 (amended).** Missing reference *entities* have non-fatal
fallbacks: an unknown product id yields the flat 1500/m cost and 2.5 kg/m
weight estimate; a delivery location resolves against a *non-empty* zone
table without failing (keyword match, else zone `Z-01`, else the first
zone); an unknown client gets 30 credit days and no loyalty discount; an
unmatched competitor code contributes no adjustment; and with a non-empty
zone table (and convertible quantities) `process_pricing` always returns a
bid.  With an *empty* zone table the unguarded `self.db["LOGISTICS"][0]`
raises `IndexError` and pricing fails (see the counterexample). -/
theorem c8_amended_reference_fallbacks :
    (∀ (pid : JVal) (qty : ℚ) (products : List Pricing.Product)
      (materials : List Pricing.Material),
      products.find? (fun p => pyStr (TechAgent.getJ p.product_id) = pyStr pid) = none →
      Pricing.calculate_micro_bom_cost pid qty products materials =
        .ok (qty * 1500, qty * 2.5, ["Product Master Missing - Using Estimate"], 0, 0)) ∧
    (∀ (w d : ℚ) (loc : String) (zones : List Pricing.Zone), zones ≠ [] →
      ∃ r, Pricing.calculate_logistics w d loc zones = .ok r) ∧
    (∀ (client_name : String) (tv : ℚ) (clients : List Pricing.Client),
      clients.find? (fun c => strContains (pyLower client_name) (pyLower c.client_name)) =
        none →
      Pricing.analyze_financials client_name tv clients =
        (tv * ((12 / 100) * 30 / 365), 30, 0)) ∧
    (∀ (codes : List String) (comps : List Pricing.Competitor),
      (∀ c ∈ codes, Pricing.findRival comps c = none) →
      Pricing.solve_game_theory codes comps = (0, [])) ∧
    (∀ (items : List Pricing.PricingItem) (cn loc : String) (d : ℚ)
      (tests codes : List String) (db : Pricing.Db) (tm : ℚ),
      db.logistics ≠ [] →
      (∀ it ∈ items, (TechAgent.qty_or_zero (Pricing.PricingItem.quantity it)).isSome) →
      (∀ p ∈ db.products,
        ∀ bi ∈ (p.bill_of_materials.getD [] ++ p.bill_of_materials_enriched.getD []),
        (pyFloat ((Pricing.BomItem.quantity bi).getD (.num 0))).isSome) →
      ∃ out, Pricing.process_pricing items cn loc d tests codes db tm = .ok out) := by
  refine ⟨?_, ?_, ?_, ?_, ?_⟩
  · intro pid qty products materials hfind
    unfold Pricing.calculate_micro_bom_cost
    rw [hfind]
    rfl
  · intro w d loc zones h
    exact calculate_logistics_ok w d loc zones h
  · intro client_name tv clients hfind
    unfold Pricing.analyze_financials
    rw [hfind]
    norm_num
  · intro codes comps h
    unfold Pricing.solve_game_theory
    rw [gameFold_spec comps codes 0 [], matchedImpacts_eq_nil h]
    simp
  · intro items cn loc d tests codes db tm hzone hq hbom
    unfold Pricing.process_pricing
    apply except_bind_surv
    · exact mapM_ok _ items (fun it hit => costItem_ok db tests it (hq it hit) hbom)
    · intro costed
      apply except_bind_surv
      · exact calculate_logistics_ok _ _ _ _ hzone
      · intro lr
        exact ⟨_, rfl⟩

/-- Counterexample to C8 as stated: with an *empty* logistics zone table —
a missing reference entity — `process_pricing` raises `IndexError`
(`self.db["LOGISTICS"][0]` on an empty list) instead of producing a bid. -/
theorem c8_counterexample :
    Pricing.process_pricing [] "Any" "Delhi" 500 [] [] {} (22 / 100) =
      .error "IndexError: list index out of range" ∧
    ¬ ∃ out, Pricing.process_pricing [] "Any" "Delhi" 500 [] [] {} (22 / 100) =
      .ok out := by
  have h : Pricing.process_pricing [] "Any" "Delhi" 500 [] [] {} (22 / 100) =
      .error "IndexError: list index out of range" := by
    with_unfolding_all rfl
  refine ⟨h, ?_⟩
  rintro ⟨out, ho⟩
  rw [h] at ho
  exact Except.noConfusion ho

/-- Witness for C8 (amended), at concrete inputs: unknown product, a
one-zone table, unknown client, an unmatched competitor code, and a full
pricing run against the minimal warehouse. -/
theorem c8_witness :
    Pricing.calculate_micro_bom_cost (.str "PX-404") 10 [] [] =
      .ok (10 * 1500, 10 * 2.5, ["Product Master Missing - Using Estimate"], 0, 0) ∧
    (∃ r, Pricing.calculate_logistics 0 500 "Somewhere" [zoneZ01] = .ok r) ∧
    Pricing.analyze_financials "Ghost Corp" 1000 [] =
      (1000 * ((12 / 100) * 30 / 365), 30, 0) ∧
    Pricing.solve_game_theory ["Nobody"] [] = (0, []) ∧
    (∃ out, Pricing.process_pricing [] "Ghost" "Somewhere" 500 [] [] c2_db (22 / 100) =
      .ok out) :=
  ⟨c8_amended_reference_fallbacks.1 (.str "PX-404") 10 [] [] rfl,
   c8_amended_reference_fallbacks.2.1 0 500 "Somewhere" [zoneZ01] (by simp),
   c8_amended_reference_fallbacks.2.2.1 "Ghost Corp" 1000 [] rfl,
   c8_amended_reference_fallbacks.2.2.2.1 ["Nobody"] [] (fun c _ => rfl),
   c8_amended_reference_fallbacks.2.2.2.2 [] "Ghost" "Somewhere" 500 [] [] c2_db
     (22 / 100) (by simp [c2_db]) (fun it hit => absurd hit (List.not_mem_nil it))
     (fun p hp => absurd hp (List.not_mem_nil p))⟩

/-! ## C6 -/

theorem snd_mem_enumFrom {α : Type _} :
    ∀ (l : List α) (n : ℕ) (p : ℕ × α), p ∈ l.enumFrom n → p.2 ∈ l := by
  intro l
  induction l with
  | nil => intro n p h; simp [List.enumFrom] at h
  | cons a t ih =>
    intro n p h
    simp only [List.enumFrom] at h
    rcases List.mem_cons.1 h with h1 | h2
    · rw [h1]
      exact List.mem_cons_self a t
    · exact List.mem_cons_of_mem a (ih (n + 1) p h2)

theorem filter_enumFrom_eq_nil {l : List (String × ℚ)} {rid : String}
    (h : rid ∉ l.map Prod.fst) (n : ℕ) :
    (l.enumFrom n).filter (fun p => p.2.1 = rid) = [] := by
  rw [List.filter_eq_nil_iff]
  intro p hp
  simp only [decide_eq_true_eq]
  intro heq
  exact h (heq ▸ List.mem_map_of_mem Prod.fst (snd_mem_enumFrom l n p hp))

theorem rank_getLast_spec :
    ∀ (l : List (String × ℚ)) (n : ℕ) {rid : String},
      (l.map Prod.fst).Nodup → rid ∈ l.map Prod.fst →
      (((l.enumFrom n).filter (fun p => p.2.1 = rid)).getLast?).map Prod.fst =
        some (n + (l.map Prod.fst).indexOf rid) := by
  intro l
  induction l with
  | nil => intro n rid _ hm; simp at hm
  | cons a t ih =>
    intro n rid hn hm
    simp only [List.enumFrom, List.filter_cons]
    by_cases h1 : a.1 = rid
    · have hnotin : rid ∉ t.map Prod.fst := by
        rw [List.map_cons] at hn
        exact h1 ▸ (List.nodup_cons.1 hn).1
      rw [filter_enumFrom_eq_nil hnotin (n + 1)]
      rw [List.map_cons, h1, List.indexOf_cons_self]
      simp [h1]
    · have hm2 : rid ∈ t.map Prod.fst := by
        rw [List.map_cons] at hm
        rcases List.mem_cons.1 hm with he | ht
        · exact absurd he.symm h1
        · exact ht
      have hn2 : (t.map Prod.fst).Nodup := by
        rw [List.map_cons] at hn
        exact (List.nodup_cons.1 hn).2
      have hcond : (decide ((n, a).2.1 = rid)) = false := by
        simp [h1]
      rw [hcond, if_neg (by simp)]
      rw [ih (n + 1) hn2 hm2]
      rw [List.map_cons, List.indexOf_cons_ne _ (fun he => h1 he)]
      congr 1
      omega

theorem rank_map_eq_some {l : List (String × ℚ)} {rid : String}
    (hn : (l.map Prod.fst).Nodup) (hm : rid ∈ l.map Prod.fst) :
    Priority.rank_map l rid = some ((l.map Prod.fst).indexOf rid + 1) := by
  unfold Priority.rank_map
  have h := rank_getLast_spec l 0 hn hm
  rw [Nat.zero_add] at h
  rcases Option.map_eq_some'.1 h with ⟨q, hq, hq1⟩
  rw [show l.enum = l.enumFrom 0 from rfl, hq]
  simp [hq1]

theorem rank_map_eq_none {l : List (String × ℚ)} {rid : String}
    (h : rid ∉ l.map Prod.fst) : Priority.rank_map l rid = none := by
  unfold Priority.rank_map
  rw [show l.enum = l.enumFrom 0 from rfl, filter_enumFrom_eq_nil h 0]
  rfl

theorem nodup_map_indexOf {α : Type _} [DecidableEq α] (l : List α)
    (h : l.Nodup) : l.map (fun a => l.indexOf a) = List.range l.length := by
  induction l with
  | nil => simp
  | cons a t ih =>
    rw [List.map_cons, List.indexOf_cons_self]
    have h2 : t.map (fun x => (a :: t).indexOf x) =
        t.map (fun x => t.indexOf x + 1) := by
      apply List.map_congr_left
      intro x hx
      have hxa : x ≠ a := fun he => (List.nodup_cons.1 h).1 (he ▸ hx)
      rw [List.indexOf_cons_ne t (Ne.symm hxa)]
    rw [h2, List.length_cons, List.range_succ_eq_map]
    have h3 : t.map (fun x => t.indexOf x + 1) =
        (t.map (fun x => t.indexOf x)).map Nat.succ := by
      rw [List.map_map]
      rfl
    rw [h3, ih (List.nodup_cons.1 h).2]

theorem sorted_perm_scored (rfps : List Priority.PRecord) :
    (Priority.sorted_rfps rfps).Perm (Priority.scored_rfps rfps) :=
  List.perm_insertionSort _ _

theorem sorted_fst_perm (rfps : List Priority.PRecord) :
    ((Priority.sorted_rfps rfps).map Prod.fst).Perm
      ((rfps.filter (fun r => !r.is_archived)).map Priority.PRecord.rfp_unique_id) := by
  simpa [Priority.scored_rfps, List.map_map, Function.comp]
    using (sorted_perm_scored rfps).map Prod.fst

theorem active_ids_nodup {rfps : List Priority.PRecord}
    (hids : (rfps.map Priority.PRecord.rfp_unique_id).Nodup) :
    ((rfps.filter (fun r => !r.is_archived)).map Priority.PRecord.rfp_unique_id).Nodup :=
  hids.sublist ((rfps.filter_sublist).map Priority.PRecord.rfp_unique_id)

theorem sorted_fst_nodup {rfps : List Priority.PRecord}
    (hids : (rfps.map Priority.PRecord.rfp_unique_id).Nodup) :
    ((Priority.sorted_rfps rfps).map Prod.fst).Nodup :=
  ((sorted_fst_perm rfps).nodup_iff).2 (active_ids_nodup hids)

theorem mem_sorted_of_mem_active {rfps : List Priority.PRecord}
    {r : Priority.PRecord} (hr : r ∈ rfps.filter (fun x => !x.is_archived)) :
    (r.rfp_unique_id, Priority.total_score r) ∈ Priority.sorted_rfps rfps := by
  have h1 : (r.rfp_unique_id, Priority.total_score r) ∈ Priority.scored_rfps rfps :=
    List.mem_map_of_mem _ hr
  exact ((sorted_perm_scored rfps).mem_iff).2 h1

theorem id_mem_sorted_of_mem_active {rfps : List Priority.PRecord}
    {r : Priority.PRecord} (hr : r ∈ rfps.filter (fun x => !x.is_archived)) :
    r.rfp_unique_id ∈ (Priority.sorted_rfps rfps).map Prod.fst := by
  have := List.mem_map_of_mem Prod.fst (mem_sorted_of_mem_active hr)
  exact this

theorem assigned_output_active {rfps : List Priority.PRecord}
    (hids : (rfps.map Priority.PRecord.rfp_unique_id).Nodup)
    {r : Priority.PRecord} (hr : r ∈ rfps.filter (fun x => !x.is_archived)) :
    Priority.assigned_output (Priority.sorted_rfps rfps) r =
      some ⟨((((Priority.sorted_rfps rfps).map Prod.fst).indexOf r.rfp_unique_id + 1 :
          ℕ) : ℤ),
        round1 (Priority.score_of (Priority.sorted_rfps rfps) r.rfp_unique_id * 100),
        none⟩ := by
  unfold Priority.assigned_output
  rw [rank_map_eq_some (sorted_fst_nodup hids) (id_mem_sorted_of_mem_active hr)]

theorem assigned_output_archived {rfps : List Priority.PRecord}
    (hids : (rfps.map Priority.PRecord.rfp_unique_id).Nodup)
    {r : Priority.PRecord} (hrm : r ∈ rfps) (ha : r.is_archived = true) :
    Priority.assigned_output (Priority.sorted_rfps rfps) r =
      some ⟨-1, 0, some "Archived"⟩ := by
  have hnot : r.rfp_unique_id ∉ (Priority.sorted_rfps rfps).map Prod.fst := by
    intro hin
    have hin2 : r.rfp_unique_id ∈
        (rfps.filter (fun x => !x.is_archived)).map Priority.PRecord.rfp_unique_id :=
      ((sorted_fst_perm rfps).mem_iff).1 hin
    rcases List.mem_map.1 hin2 with ⟨r2, hr2, hid⟩
    have hr2' : r2 ∈ rfps := List.mem_of_mem_filter hr2
    have heq : r2 = r := List.inj_on_of_nodup_map hids hr2' hrm hid
    have : (!r.is_archived) = true := heq ▸ (List.mem_filter.1 hr2).2
    rw [ha] at this
    exact Bool.noConfusion this
  unfold Priority.assigned_output
  rw [rank_map_eq_none hnot]
  simp [ha]

theorem sorted_get_at_indexOf {rfps : List Priority.PRecord}
    (hids : (rfps.map Priority.PRecord.rfp_unique_id).Nodup)
    {r : Priority.PRecord} (hr : r ∈ rfps.filter (fun x => !x.is_archived))
    (hlt : ((Priority.sorted_rfps rfps).map Prod.fst).indexOf r.rfp_unique_id <
      (Priority.sorted_rfps rfps).length) :
    (Priority.sorted_rfps rfps).get
        ⟨((Priority.sorted_rfps rfps).map Prod.fst).indexOf r.rfp_unique_id, hlt⟩ =
      (r.rfp_unique_id, Priority.total_score r) := by
  obtain ⟨k, hk⟩ := List.mem_iff_get.1 (mem_sorted_of_mem_active hr)
  have hk2 : (k : ℕ) < ((Priority.sorted_rfps rfps).map Prod.fst).length := by
    simpa using k.2
  have hfst : ((Priority.sorted_rfps rfps).map Prod.fst).get ⟨k, hk2⟩ =
      r.rfp_unique_id := by
    rw [List.get_eq_getElem, List.getElem_map]
    rw [show (Priority.sorted_rfps rfps)[(k : ℕ)] =
        (Priority.sorted_rfps rfps).get k from rfl, hk]
  have hidx : ((Priority.sorted_rfps rfps).map Prod.fst).indexOf r.rfp_unique_id =
      (k : ℕ) := by
    rw [← hfst]
    exact List.get_indexOf (sorted_fst_nodup hids) _
  have hfin : (⟨((Priority.sorted_rfps rfps).map Prod.fst).indexOf r.rfp_unique_id,
      hlt⟩ : Fin (Priority.sorted_rfps rfps).length) = ⟨(k : ℕ), by omega⟩ :=
    Fin.ext hidx
  rw [hfin]
  rw [show ((⟨(k : ℕ), by omega⟩ : Fin (Priority.sorted_rfps rfps).length)) = k from
    Fin.ext rfl]
  exact hk

/-- **C6.** After `recalculate_all_priorities` on a snapshot with distinct
`rfp_unique_id`s: the ranks written to the non-archived records are exactly
a permutation of `1..N` (`N` = number of non-archived records); every
archived record carries the sentinel output `{rank := -1, priority_score
:= 0, status := "Archived"}`; and a lower rank always means a
greater-or-equal composite priority score. -/
theorem c6_rank_assignment (rfps : List Priority.PRecord)
    (hids : (rfps.map Priority.PRecord.rfp_unique_id).Nodup) :
    ((((Priority.recalculate_all_priorities rfps).filter
        (fun p => !p.1.is_archived)).map
        (fun p => (p.2.map Priority.AgentOut.rank).getD 0)).Perm
      ((List.range (rfps.filter (fun r => !r.is_archived)).length).map
        (fun i : ℕ => (i : ℤ) + 1))) ∧
    (∀ p ∈ Priority.recalculate_all_priorities rfps, p.1.is_archived = true →
      p.2 = some ⟨-1, 0, some "Archived"⟩) ∧
    (∀ p ∈ Priority.recalculate_all_priorities rfps,
     ∀ q ∈ Priority.recalculate_all_priorities rfps,
      p.1.is_archived = false → q.1.is_archived = false →
      ∀ a b : Priority.AgentOut, p.2 = some a → q.2 = some b →
      a.rank < b.rank →
      Priority.total_score q.1 ≤ Priority.total_score p.1) := by
  have hout : Priority.recalculate_all_priorities rfps =
      rfps.map (fun r =>
        (r, Priority.assigned_output (Priority.sorted_rfps rfps) r)) := rfl
  refine ⟨?_, ?_, ?_⟩
  · rw [hout, List.filter_map, List.map_map]
    have hfilt : (rfps.filter ((fun p => !p.1.is_archived) ∘ (fun r =>
        (r, Priority.assigned_output (Priority.sorted_rfps rfps) r)))) =
        rfps.filter (fun r => !r.is_archived) := rfl
    rw [hfilt]
    have hmapval : (rfps.filter (fun r => !r.is_archived)).map
        ((fun p : Priority.PRecord × Option Priority.AgentOut =>
          (p.2.map Priority.AgentOut.rank).getD 0) ∘ (fun r =>
          (r, Priority.assigned_output (Priority.sorted_rfps rfps) r))) =
        (rfps.filter (fun r => !r.is_archived)).map (fun r =>
          ((((Priority.sorted_rfps rfps).map Prod.fst).indexOf r.rfp_unique_id +
            1 : ℕ) : ℤ)) := by
      apply List.map_congr_left
      intro r hr
      simp only [Function.comp]
      rw [assigned_output_active hids hr]
      rfl
    rw [hmapval]
    have hmm : (rfps.filter (fun r => !r.is_archived)).map (fun r =>
        ((((Priority.sorted_rfps rfps).map Prod.fst).indexOf r.rfp_unique_id +
          1 : ℕ) : ℤ)) =
        ((rfps.filter (fun r => !r.is_archived)).map
          Priority.PRecord.rfp_unique_id).map (fun s =>
          ((((Priority.sorted_rfps rfps).map Prod.fst).indexOf s + 1 : ℕ) : ℤ)) := by
      rw [List.map_map]
      rfl
    rw [hmm]
    refine ((sorted_fst_perm rfps).symm.map _).trans ?_
    have h1 : ((Priority.sorted_rfps rfps).map Prod.fst).map (fun s =>
        ((((Priority.sorted_rfps rfps).map Prod.fst).indexOf s + 1 : ℕ) : ℤ)) =
        (((Priority.sorted_rfps rfps).map Prod.fst).map (fun s =>
          ((Priority.sorted_rfps rfps).map Prod.fst).indexOf s)).map
          (fun k => ((k + 1 : ℕ) : ℤ)) := by
      conv_rhs => rw [List.map_map]
      rfl
    rw [h1, nodup_map_indexOf _ (sorted_fst_nodup hids)]
    have hlen : ((Priority.sorted_rfps rfps).map Prod.fst).length =
        (rfps.filter (fun r => !r.is_archived)).length := by
      rw [List.length_map, (sorted_perm_scored rfps).length_eq,
        Priority.scored_rfps, List.length_map]
    rw [hlen]
    have hfun : (List.range ((rfps.filter (fun r => !r.is_archived)).length)).map
        (fun k => ((k + 1 : ℕ) : ℤ)) =
        (List.range ((rfps.filter (fun r => !r.is_archived)).length)).map
        (fun i : ℕ => (i : ℤ) + 1) := by
      apply List.map_congr_left
      intro i _
      push_cast
      ring
    rw [hfun]
  · intro p hp harch
    rw [hout] at hp
    rcases List.mem_map.1 hp with ⟨r, hr, rfl⟩
    exact assigned_output_archived hids hr harch
  · intro p hp q hq hpn hqn a b hpa hqb hrank
    rw [hout] at hp hq
    rcases List.mem_map.1 hp with ⟨r, hrm, rfl⟩
    rcases List.mem_map.1 hq with ⟨s, hsm, rfl⟩
    have hra : r.is_archived = false := hpn
    have hsa : s.is_archived = false := hqn
    have hract : r ∈ rfps.filter (fun x => !x.is_archived) :=
      List.mem_filter.2 ⟨hrm, by simp [hra]⟩
    have hsact : s ∈ rfps.filter (fun x => !x.is_archived) :=
      List.mem_filter.2 ⟨hsm, by simp [hsa]⟩
    have hpa2 : Priority.assigned_output (Priority.sorted_rfps rfps) r = some a := hpa
    have hqb2 : Priority.assigned_output (Priority.sorted_rfps rfps) s = some b := hqb
    rw [assigned_output_active hids hract] at hpa2
    rw [assigned_output_active hids hsact] at hqb2
    have ha := Option.some.inj hpa2
    have hb := Option.some.inj hqb2
    have hranks : ((((Priority.sorted_rfps rfps).map Prod.fst).indexOf
        r.rfp_unique_id + 1 : ℕ) : ℤ) <
        ((((Priority.sorted_rfps rfps).map Prod.fst).indexOf
        s.rfp_unique_id + 1 : ℕ) : ℤ) := by
      rw [← ha, ← hb] at hrank
      exact hrank
    have hidxlt : ((Priority.sorted_rfps rfps).map Prod.fst).indexOf
        r.rfp_unique_id <
        ((Priority.sorted_rfps rfps).map Prod.fst).indexOf s.rfp_unique_id := by
      exact_mod_cast Nat.lt_of_succ_lt_succ (by exact_mod_cast hranks)
    have hltr : ((Priority.sorted_rfps rfps).map Prod.fst).indexOf
        r.rfp_unique_id < (Priority.sorted_rfps rfps).length := by
      have := List.indexOf_lt_length.2 (id_mem_sorted_of_mem_active hract)
      simpa using this
    have hlts : ((Priority.sorted_rfps rfps).map Prod.fst).indexOf
        s.rfp_unique_id < (Priority.sorted_rfps rfps).length := by
      have := List.indexOf_lt_length.2 (id_mem_sorted_of_mem_active hsact)
      simpa using this
    have hsorted : List.Sorted Priority.scoreGE (Priority.sorted_rfps rfps) :=
      List.sorted_insertionSort _ _
    have hrel := hsorted.rel_get_of_lt
      (a := ⟨_, hltr⟩) (b := ⟨_, hlts⟩) (Fin.mk_lt_mk.2 hidxlt)
    rw [sorted_get_at_indexOf hids hract hltr,
      sorted_get_at_indexOf hids hsact hlts] at hrel
    exact hrel

/-- Witness for C6 on a concrete three-record portfolio (one archived):
the archived record carries the sentinel and the two active records carry a
permutation of `{1, 2}`. -/
theorem c6_witness :
    (∀ p ∈ Priority.recalculate_all_priorities rfpsC6, p.1.is_archived = true →
      p.2 = some ⟨-1, 0, some "Archived"⟩) ∧
    (((Priority.recalculate_all_priorities rfpsC6).filter
        (fun p => !p.1.is_archived)).map
        (fun p => (p.2.map Priority.AgentOut.rank).getD 0)).Perm
      ((List.range (rfpsC6.filter (fun r => !r.is_archived)).length).map
        (fun i : ℕ => (i : ℤ) + 1)) :=
  ⟨(c6_rank_assignment rfpsC6 (by with_unfolding_all decide)).2.1,
   (c6_rank_assignment rfpsC6 (by with_unfolding_all decide)).1⟩
